import Mathlib

/-!
Verification of the Dante Audio Network integration core
(`custom_components/dante/coordinator.py` and
`custom_components/dante/netaudio/browser.py`).

Strings of the Python source are modelled as `List Char`, bytes objects as
`List Nat` (one entry per byte), dictionaries as association lists with
first-match lookup and in-place-overwriting insertion (Python dictionaries
keep unique keys and preserve insertion order).  Fallible Python code
(raised exceptions) is modelled with `Option` / `Except`.
-/

set_option maxRecDepth 40000

/-- The characters of a string literal (used to write Python strings). -/
def chars (s : String) : List Char := s.data

/-- The ASCII/UTF-8 code units of a pure-ASCII literal, as bytes. -/
def asciiBytes (s : String) : List Nat := s.data.map Char.toNat

/-! ## Python string primitives -/

/-- Characters Python's `str.strip()` (and `int()`) treat as whitespace. -/
def isPySpace (c : Char) : Bool :=
  let n := c.toNat
  (9 ≤ n ∧ n ≤ 13) || n = 28 || n = 29 || n = 30 || n = 31 || n = 32 ||
    n = 133 || n = 160 || n = 5760 || (8192 ≤ n ∧ n ≤ 8202) || n = 8232 ||
    n = 8233 || n = 8239 || n = 8287 || n = 12288

/-- Line-boundary characters of Python's `str.splitlines()`. -/
def isLineBreak (c : Char) : Bool :=
  let n := c.toNat
  n = 10 || n = 11 || n = 12 || n = 13 || n = 28 || n = 29 || n = 30 ||
    n = 133 || n = 8232 || n = 8233

/-- Python `str.strip()`: drop whitespace from both ends. -/
def pyStrip (s : List Char) : List Char :=
  ((s.dropWhile isPySpace).reverse.dropWhile isPySpace).reverse

/-- Worker for `pySplitlines`: `cur` is the reversed current line. -/
def pySplitlinesGo (cur : List Char) : List Char → List (List Char)
  | [] => [cur.reverse]
  | '\r' :: '\n' :: t =>
    cur.reverse :: (match t with | [] => [] | c :: u => pySplitlinesGo [] (c :: u))
  | c :: t =>
    if isLineBreak c then
      cur.reverse :: (match t with | [] => [] | d :: u => pySplitlinesGo [] (d :: u))
    else pySplitlinesGo (c :: cur) t

/-- Python `str.splitlines()`. -/
def pySplitlines (s : List Char) : List (List Char) :=
  match s with
  | [] => []
  | c :: t => pySplitlinesGo [] (c :: t)

/-- Split at every character satisfying `p`, keeping empty pieces
(the semantics of Python `str.split(sep)` for a one-character `sep`). -/
def splitOnPred (p : Char → Bool) (s : List Char) : List (List Char) :=
  s.foldr
    (fun c acc =>
      match acc with
      | [] => [[c]]
      | h :: t => if p c then [] :: h :: t else (c :: h) :: t)
    [[]]

/-- Python `s.split(c)` for a single-character separator. -/
def splitOnChar (c : Char) (s : List Char) : List (List Char) :=
  splitOnPred (fun d => d = c) s

/-- Python `s.split()`: split on whitespace runs, dropping empty pieces. -/
def pySplitWs (s : List Char) : List (List Char) :=
  (splitOnPred isPySpace s).filter (fun w => w ≠ [])

/-- Python `s.split(" ", 1)`: split at the first space only. -/
def splitFirstSpace (s : List Char) : List (List Char) :=
  match s.span (fun c => c ≠ ' ') with
  | (before, []) => [before]
  | (before, _ :: rest) => [before, rest]

/-- Python `s.partition(sep).2` for a one-character `sep`: the text after
the first occurrence (empty when the separator does not occur). -/
def afterFirstChar (c : Char) (s : List Char) : List Char :=
  ((s.span (fun d => d ≠ c)).2).drop 1

/-- The value of a nonempty all-digit string. -/
def parseDigits : List Char → Option Nat
  | [] => none
  | ds =>
    if ds.all Char.isDigit then
      some (ds.foldl (fun acc c => acc * 10 + (c.toNat - 48)) 0)
    else none

/-- Python `int(s)` on a string: optional surrounding whitespace, optional
sign, then decimal digits; anything else raises `ValueError` (`none`). -/
def parsePyInt (s : List Char) : Option Int :=
  match pyStrip s with
  | '+' :: ds => (parseDigits ds).map Int.ofNat
  | '-' :: ds => (parseDigits ds).map (fun n => -(n : Int))
  | ds => (parseDigits ds).map Int.ofNat

/-- The start index of the last occurrence of `sep` in `s`
(Python `s.rfind(sep)` restricted to a found result). -/
def lastOccur (sep : List Char) : List Char → Option Nat
  | [] => if sep.isEmpty then some 0 else none
  | c :: t =>
    match lastOccur sep t with
    | some i => some (i + 1)
    | none => if sep.isPrefixOf (c :: t) then some 0 else none

/-- Python `s.rsplit(sep, 1)` when `sep` occurs (the two pieces around the
last occurrence); `none` when `sep` does not occur in `s`. -/
def rsplitOnce (sep s : List Char) : Option (List Char × List Char) :=
  (lastOccur sep s).map (fun i => (s.take i, s.drop (i + sep.length)))

/-- Python `pat in hay` for strings. -/
def containsSub (hay pat : List Char) : Bool :=
  (lastOccur pat hay).isSome

/-! ## Association lists (Python dictionaries) -/

/-- Python dictionary lookup `d.get(k)` (first match; dictionaries built by
`insertAL` keep keys unique). -/
def lookupAL {α β : Type} [DecidableEq α] : List (α × β) → α → Option β
  | [], _ => none
  | (k', v') :: t, k => if k' = k then some v' else lookupAL t k

/-- Python dictionary assignment `d[k] = v`: overwrite in place, else append. -/
def insertAL {α β : Type} [DecidableEq α] : List (α × β) → α → β → List (α × β)
  | [], k, v => [(k, v)]
  | (k', v') :: t, k, v =>
    if k' = k then (k, v) :: t else (k', v') :: insertAL t k v

/-! ## StreamInfo and the SDP parser (`_parse_sdp`) -/

/-- The dictionary `_parse_sdp` returns for one AES67/SAP session. -/
structure StreamInfo where
  session_name : List Char
  session_id : Option Int
  origin_ip : Option (List Char)
  multicast_addr : Option (List Char)
  port : Option Int
  codec : Option (List Char)
  channels : Int
  channel_info : Option (List Char)
deriving DecidableEq, Repr

/-- The accumulator of `_parse_sdp`'s line loop (its local variables). -/
structure SdpAcc where
  session_name : Option (List Char)
  session_id : Option Int
  origin_ip : Option (List Char)
  multicast_addr : Option (List Char)
  port : Option Int
  codec : Option (List Char)
  channels : Int
  channel_info : Option (List Char)
deriving DecidableEq, Repr

/-- Initial values of `_parse_sdp`'s local variables. -/
def sdpInit : SdpAcc :=
  { session_name := none, session_id := none, origin_ip := none,
    multicast_addr := none, port := none, codec := none, channels := 1,
    channel_info := none }

/-- One iteration of `_parse_sdp`'s loop over the (stripped) lines. -/
def parseSdpLine (acc : SdpAcc) (rawLine : List Char) : SdpAcc :=
  let line := pyStrip rawLine
  if (chars "s=").isPrefixOf line then
    { acc with session_name := some (line.drop 2) }
  else if (chars "o=").isPrefixOf line then
    let parts := pySplitWs (line.drop 2)
    if parts.length ≥ 6 then
      { acc with
        origin_ip := some (parts.getD 5 []),
        session_id :=
          match parsePyInt (parts.getD 1 []) with
          | some n => some n
          | none => acc.session_id }
    else acc
  else if (chars "c=").isPrefixOf line then
    let parts := pySplitWs (line.drop 2)
    if parts.length ≥ 3 then
      { acc with
        multicast_addr := some ((splitOnChar '/' (parts.getD 2 [])).headD []) }
    else acc
  else if (chars "m=").isPrefixOf line then
    let parts := pySplitWs (line.drop 2)
    if parts.length ≥ 2 then
      { acc with
        port :=
          match parsePyInt (parts.getD 1 []) with
          | some n => some n
          | none => acc.port }
    else acc
  else if (chars "a=rtpmap:").isPrefixOf line then
    let parts := splitFirstSpace line
    if parts.length = 2 then
      let codec := parts.getD 1 []
      let codecParts := splitOnChar '/' codec
      { acc with
        codec := some codec,
        channels :=
          if codecParts.length ≥ 3 then
            match parsePyInt (codecParts.getD 2 []) with
            | some n => n
            | none => acc.channels
          else acc.channels }
    else acc
  else if (chars "i=").isPrefixOf line then
    { acc with channel_info := some (line.drop 2) }
  else acc

/-- `_parse_sdp`: fold the line parser over the stripped text's lines and
require a nonempty session name. -/
def parseSdp (sdp : List Char) : Option StreamInfo :=
  let acc := (pySplitlines (pyStrip sdp)).foldl parseSdpLine sdpInit
  match acc.session_name with
  | none => none
  | some nm =>
    if nm = [] then none
    else
      some
        { session_name := nm, session_id := acc.session_id,
          origin_ip := acc.origin_ip, multicast_addr := acc.multicast_addr,
          port := acc.port, codec := acc.codec, channels := acc.channels,
          channel_info := acc.channel_info }

/-! ## UTF-8 lossy decoding (`payload.decode("utf-8", errors="replace")`) -/

/-- `true` for a UTF-8 continuation byte. -/
def isUtf8Cont (b : Nat) : Bool := 128 ≤ b ∧ b ≤ 191

/-- The replacement character U+FFFD. -/
def replChar : Char := Char.ofNat 65533

/-- UTF-8 decoding with replacement of invalid sequences
(`bytes.decode("utf-8", errors="replace")`; never fails). -/
def decodeUtf8Replace : List Nat → List Char
  | [] => []
  | b1 :: t1 =>
    if b1 < 128 then Char.ofNat b1 :: decodeUtf8Replace t1
    else if 194 ≤ b1 ∧ b1 ≤ 223 then
      match t1 with
      | b2 :: t2 =>
        if isUtf8Cont b2 then
          Char.ofNat ((b1 - 192) * 64 + (b2 - 128)) :: decodeUtf8Replace t2
        else replChar :: decodeUtf8Replace (b2 :: t2)
      | [] => [replChar]
    else if 224 ≤ b1 ∧ b1 ≤ 239 then
      match t1 with
      | b2 :: t2 =>
        if isUtf8Cont b2 ∧ (b1 ≠ 224 ∨ 160 ≤ b2) ∧ (b1 ≠ 237 ∨ b2 ≤ 159) then
          match t2 with
          | b3 :: t3 =>
            if isUtf8Cont b3 then
              Char.ofNat ((b1 - 224) * 4096 + (b2 - 128) * 64 + (b3 - 128)) ::
                decodeUtf8Replace t3
            else replChar :: decodeUtf8Replace (b3 :: t3)
          | [] => [replChar]
        else replChar :: decodeUtf8Replace (b2 :: t2)
      | [] => [replChar]
    else if 240 ≤ b1 ∧ b1 ≤ 244 then
      match t1 with
      | b2 :: t2 =>
        if isUtf8Cont b2 ∧ (b1 ≠ 240 ∨ 144 ≤ b2) ∧ (b1 ≠ 244 ∨ b2 ≤ 143) then
          match t2 with
          | b3 :: t3 =>
            if isUtf8Cont b3 then
              match t3 with
              | b4 :: t4 =>
                if isUtf8Cont b4 then
                  Char.ofNat ((b1 - 240) * 262144 + (b2 - 128) * 4096 +
                      (b3 - 128) * 64 + (b4 - 128)) :: decodeUtf8Replace t4
                else replChar :: decodeUtf8Replace (b4 :: t4)
              | [] => [replChar]
            else replChar :: decodeUtf8Replace (b3 :: t3)
          | [] => [replChar]
        else replChar :: decodeUtf8Replace (b2 :: t2)
      | [] => [replChar]
    else replChar :: decodeUtf8Replace t1


/-! ## SAP packet framing (`_parse_sap_packet`) -/

/-- The version bits (5-7) of a SAP packet's first byte. -/
def sapVersionField (data : List Nat) : Nat := (data.getD 0 0 >>> 5) &&& 7

/-- The message-type bit (2) of a SAP packet's first byte
(0 = announcement, 1 = deletion). -/
def sapMsgTypeField (data : List Nat) : Nat := (data.getD 0 0 >>> 2) &&& 1

/-- The structural part of `_parse_sap_packet`: length, version and
message-type checks, payload offset, optional MIME-type skip, and the lossy
UTF-8 decode of the SDP payload. -/
def sapPayloadText (data : List Nat) : Option (List Char) :=
  if data.length < 8 then none
  else
    let header := data.getD 0 0
    let version := (header >>> 5) &&& 7
    let addrType := (header >>> 4) &&& 1
    let msgType := (header >>> 2) &&& 1
    if version ≠ 1 ∨ msgType ≠ 0 then none
    else
      let authLen := data.getD 1 0
      let originLen := if addrType = 0 then 4 else 16
      let payloadStart := 4 + originLen + authLen * 4
      if payloadStart ≥ data.length then none
      else
        let payload := data.drop payloadStart
        if (asciiBytes "v=").isPrefixOf payload then
          some (decodeUtf8Replace payload)
        else
          match payload.findIdx? (fun b => b = 0) with
          | none => none
          | some i => some (decodeUtf8Replace (payload.drop (i + 1)))

/-- `_parse_sap_packet`: framing plus the SDP parser. -/
def parseSapPacket (data : List Nat) : Option StreamInfo :=
  (sapPayloadText data).bind parseSdp

/-! ## Sanity checks on concrete inputs -/

example : pySplitlines (chars "a\r\n\r\nb") = [chars "a", [], chars "b"] := by decide

example : pySplitWs (chars "nax 821074694 127 IN IP4 10.11.7.71") =
    [chars "nax", chars "821074694", chars "127", chars "IN", chars "IP4",
      chars "10.11.7.71"] := by decide

example : parsePyInt (chars " 48000 ") = some 48000 := by decide

example : parsePyInt (chars "12x") = none := by decide

example : lastOccur (chars " - ") (chars "S - - a") = some 3 := by decide

example :
    parseSdp (chars "v=0\no=nax 821074694 127 IN IP4 10.11.7.71\ns=Studio A\nc=IN IP4 239.69.85.220/32\nm=audio 5004 RTP/AVP 97\na=rtpmap:97 L24/48000/2\ni=2 channels: Tx Left, Tx Right") =
      some
        { session_name := chars "Studio A", session_id := some 821074694,
          origin_ip := some (chars "10.11.7.71"),
          multicast_addr := some (chars "239.69.85.220"), port := some 5004,
          codec := some (chars "L24/48000/2"), channels := 2,
          channel_info := some (chars "2 channels: Tx Left, Tx Right") } := by
  decide

example :
    parseSapPacket ([32, 0, 0, 0, 0, 0, 0, 0] ++ asciiBytes "v=0\ns=X") =
      some
        { session_name := chars "X", session_id := none, origin_ip := none,
          multicast_addr := none, port := none, codec := none, channels := 1,
          channel_info := none } := by decide

example : parseSapPacket ([32, 0, 0, 0, 0, 0, 0, 0] ++ asciiBytes "v=0\ns=") =
    none := by decide

/-! ## Channel-name derivation (`_get_channel_names`) -/

/-- The fallback table of `_get_channel_names` (1 channel: Mono; 2: Left,
Right; N: Ch1..ChN; Python `range` of a negative count is empty). -/
def fallbackChannelNames (chCount : Int) : List (List Char) :=
  if chCount = 1 then [chars "Mono"]
  else if chCount = 2 then [chars "Left", chars "Right"]
  else (List.range chCount.toNat).map (fun i => chars "Ch" ++ Nat.toDigits 10 (i + 1))

/-- `_get_channel_names`: parse names from the `i=` line when they are
consistent with the channel count, else fall back.  (`info.get("channel_info", "")`
yields `None` for a parsed stream without an `i=` line; both `None` and the
empty string are falsy.) -/
def getChannelNames (info : StreamInfo) : List (List Char) :=
  let chCount := info.channels
  let channelInfo := (info.channel_info).getD []
  if channelInfo ≠ [] ∧ containsSub channelInfo (chars ":") then
    let namesPart := afterFirstChar ':' channelInfo
    let names := ((splitOnChar ',' namesPart).map pyStrip).filter (fun n => n ≠ [])
    if (names.length : Int) = chCount then names else fallbackChannelNames chCount
  else fallbackChannelNames chCount

/-- C8's rule exactly as the claim words it: the comma-separated,
whitespace-trimmed items after the first colon (empty items kept), used when
their count equals the channel count. -/
def channelNamesClaimed (info : StreamInfo) : List (List Char) :=
  let chCount := info.channels
  let channelInfo := (info.channel_info).getD []
  if channelInfo ≠ [] ∧ containsSub channelInfo (chars ":") then
    let names := (splitOnChar ',' (afterFirstChar ':' channelInfo)).map pyStrip
    if (names.length : Int) = chCount then names else fallbackChannelNames chCount
  else fallbackChannelNames chCount

/-- The amended rule: as `channelNamesClaimed`, but items that are empty
after trimming are dropped before the count comparison. -/
def channelNamesAmended (info : StreamInfo) : List (List Char) :=
  let chCount := info.channels
  let channelInfo := (info.channel_info).getD []
  if channelInfo ≠ [] ∧ containsSub channelInfo (chars ":") then
    let names :=
      ((splitOnChar ',' (afterFirstChar ':' channelInfo)).map pyStrip).filter
        (fun n => n ≠ [])
    if (names.length : Int) = chCount then names else fallbackChannelNames chCount
  else fallbackChannelNames chCount

/-! ## AES67 source listing and option parsing -/

/-- Lexicographic (code-point) order on Python strings. -/
def strLtChars : List Char → List Char → Bool
  | [], [] => false
  | [], _ :: _ => true
  | _ :: _, [] => false
  | a :: s, b :: t =>
    if a.toNat < b.toNat then true
    else if b.toNat < a.toNat then false
    else strLtChars s t

/-- Insert one stream into a name-sorted list. -/
def insertSortedByName (p : List Char × StreamInfo) :
    List (List Char × StreamInfo) → List (List Char × StreamInfo)
  | [] => [p]
  | q :: t =>
    if strLtChars q.1 p.1 then q :: insertSortedByName p t else p :: q :: t

/-- Python `sorted(streams.items())` (keys are unique, so only the names
are compared). -/
def sortByName (streams : List (List Char × StreamInfo)) :
    List (List Char × StreamInfo) :=
  streams.foldr insertSortedByName []

/-- The option string for one stream channel:
`f"[AES67] {name} - {ch_name}"`. -/
def aes67Option (name ch : List Char) : List Char :=
  chars "[AES67] " ++ name ++ chars " - " ++ ch

/-- `get_all_aes67_sources`: every channel of every cached stream, streams
in sorted name order, channels in derived order. -/
def getAllAes67Sources (streams : List (List Char × StreamInfo)) :
    List (List Char) :=
  (sortByName streams).flatMap
    (fun p => (getChannelNames p.2).map (fun ch => aes67Option p.1 ch))

/-- The 1-based index of the first channel name equal to `ch`
(the `enumerate(ch_names, 1)` loop of `get_aes67_stream_info`). -/
def findChannelIdxGo (i : Nat) (ch : List Char) : List (List Char) → Option Nat
  | [] => none
  | n :: t => if n = ch then some i else findChannelIdxGo (i + 1) ch t

/-- `get_aes67_stream_info`: strip the 8-character `"[AES67] "` prefix,
split on the last `" - "`, look the stream up by name, and return it with
the 1-based index of the channel name. -/
def getAes67StreamInfo (streams : List (List Char × StreamInfo))
    (opt : List Char) : Option (StreamInfo × Nat) :=
  let rest := opt.drop 8
  match rsplitOnce (chars " - ") rest with
  | none => none
  | some (streamName, chName) =>
    match lookupAL streams streamName with
    | none => none
    | some info =>
      (findChannelIdxGo 1 chName (getChannelNames info)).map (fun i => (info, i))

/-! ## AES67 subscribe command (`_build_aes67_subscribe_command`) -/

/-- `socket.inet_aton` on the dotted-quad form (the only form SDP
announcements carry); other inputs raise (`none`). -/
def inetAton (s : List Char) : Option (List Nat) :=
  match (splitOnChar '.' s).map parseDigits with
  | [some a, some b, some c, some d] =>
    if a ≤ 255 ∧ b ≤ 255 ∧ c ≤ 255 ∧ d ≤ 255 then some [a, b, c, d] else none
  | _ => none

/-- `inet_aton` applied to a dictionary value that may be `None`
(`inet_aton(None)` raises `TypeError`). -/
def inetAtonOpt : Option (List Char) → Option (List Nat)
  | none => none
  | some s => inetAton s

/-- Big-endian 16-bit encoding (`struct.pack(">H", n)` for `0 ≤ n < 2^16`). -/
def be16 (n : Nat) : List Nat := [n / 256 % 256, n % 256]

/-- Big-endian 32-bit encoding (`struct.pack(">I", n)`). -/
def be32 (n : Nat) : List Nat :=
  [n / 16777216 % 256, n / 65536 % 256, n / 256 % 256, n % 256]

/-- Overwrite `bs.length` bytes of `pkt` starting at `off`
(`struct.pack_into` / slice assignment; all uses below are in range). -/
def writeBytesAt (pkt : List Nat) (off : Nat) (bs : List Nat) : List Nat :=
  pkt.take off ++ bs ++ pkt.drop (off + bs.length)

/-- `_AES67_ENCODING_MAP.get(enc_name, 0x08)`. -/
def aes67EncodingByte (encName : List Char) : Nat :=
  if encName = chars "L24" then 8
  else if encName = chars "L16" then 6
  else if encName = chars "L32" then 10
  else 8

/-- Apply a sequence of byte writes to a buffer in order. -/
def applyWrites (pkt : List Nat) : List (Nat × List Nat) → List Nat
  | [] => pkt
  | w :: ws => applyWrites (writeBytesAt pkt w.1 w.2) ws

/-- The write sequence of `_build_aes67_subscribe_command` on the zeroed
112-byte buffer, one entry per `struct.pack_into`, byte or slice
assignment, in source order. -/
def buildAes67Core (sourceIp mcastIp : List Nat)
    (flowId rxChannel flowChannel encByte chCount rtpPort seq : Nat) :
    List Nat :=
  applyWrites (List.replicate 112 0)
    [(0, [40, 9] ++ be16 112 ++ be16 seq ++ [50, 1]),
     (10, [1]), (11, [1]), (12, [0]), (13, [16]),
     (18, be16 16898), (28, be16 1), (34, be16 104),
     (44, be16 3), (46, be16 64), (52, be16 2), (54, be16 96),
     (64, be16 4096 ++ be16 11), (68, sourceIp), (76, be32 flowId),
     (96, be16 rxChannel), (98, be16 chCount), (102, [flowChannel]),
     (104, [encByte]), (105, [chCount]), (106, be16 rtpPort),
     (108, mcastIp)]

/-- The encoding byte derived from the codec string
(`codec.split("/")[0] if codec else "L24"`). -/
def aes67EncNameOf (codec : Option (List Char)) : List Char :=
  match codec with
  | some c => if c ≠ [] then (splitOnChar '/' c).headD [] else chars "L24"
  | none => chars "L24"

/-- `_build_aes67_subscribe_command`.  All the operations that can raise
(`inet_aton` on a missing address, `None & mask`, `struct.pack_into` or a
byte assignment with an out-of-range value) are gathered into the guards;
`none` means the Python code raises and returns no frame. -/
def buildAes67SubscribeCommand (rxChannel flowChannel : Nat)
    (info : StreamInfo) (seq : Nat) : Option (List Nat) :=
  match inetAtonOpt info.origin_ip with
  | none => none
  | some sourceIp =>
    match inetAtonOpt info.multicast_addr with
    | none => none
    | some mcastIp =>
      match info.session_id with
      | none => none
      | some sid =>
        match info.port with
        | none => none
        | some port =>
          let chCount := info.channels
          if rxChannel < 65536 ∧ flowChannel < 256 ∧ seq < 65536 ∧
              0 ≤ port ∧ port < 65536 ∧ 0 ≤ chCount ∧ chCount < 256 then
            some (buildAes67Core sourceIp mcastIp
              (sid.emod 4294967296).toNat rxChannel flowChannel
              (aes67EncodingByte (aes67EncNameOf info.codec)) chCount.toNat
              port.toNat seq)
          else none

/-! ## AES67 acknowledgement decoding (`_send_aes67_subscribe`) -/

/-- The four outcomes of `_send_aes67_subscribe`'s response handling, one
per code path: return `True`; the status-logged `return False`; the
"unexpected response" `return False`; the `socket.timeout` `return False`. -/
inductive Aes67SubscribeResult where
  | success : Aes67SubscribeResult
  | statusFailure (status : Nat) : Aes67SubscribeResult
  | unexpectedResponse : Aes67SubscribeResult
  | timeout : Aes67SubscribeResult
deriving DecidableEq, Repr

/-- Response handling of `_send_aes67_subscribe`: `none` models no datagram
within the 2-second deadline (`socket.timeout`). -/
def decodeAes67Response : Option (List Nat) → Aes67SubscribeResult
  | none => Aes67SubscribeResult.timeout
  | some resp =>
    if resp.length ≥ 10 ∧ resp.getD 0 0 = 40 ∧ resp.getD 1 0 = 1 then
      let status := resp.getD 8 0 * 256 + resp.getD 9 0
      if status = 1 then Aes67SubscribeResult.success
      else Aes67SubscribeResult.statusFailure status
    else Aes67SubscribeResult.unexpectedResponse

/-- The boolean `_send_aes67_subscribe` returns for each outcome. -/
def aes67SubscribeOk : Aes67SubscribeResult → Bool
  | Aes67SubscribeResult.success => true
  | _ => false

/-! ## Device consolidation (`_async_update_data` / `DanteBrowser._browse`) -/

/-- One resolved mDNS service record (browser variable `service_data`). -/
structure ServiceRecord where
  stype : List Char
  sname : List Char
  ipv4 : List Char
  port : Nat
  props : List (List Char × List Char)
  server_name : List Char
deriving DecidableEq, Repr

/-- The identity fields of a `DanteDevice` populated by consolidation. -/
structure Device where
  server_name : List Char
  ipv4 : Option (List Char)
  mac_address : Option (List Char)
  model_id : Option (List Char)
  sample_rate : Option Int
  latency : Option Int
  software : Option (List Char)
deriving DecidableEq, Repr

/-- `DanteDevice(server_name=...)`: all identity fields start unset. -/
def initDevice (host : List Char) : Device :=
  { server_name := host, ipv4 := none, mac_address := none, model_id := none,
    sample_rate := none, latency := none, software := none }

/-- Modelled from the spec: `SERVICE_CMC`, the control-management-channel
service type from `netaudio/const.py` (that file is not under `src/`);
only its identity as a fixed string matters here. -/
def serviceCMC : List Char := chars "_netaudio-cmc._udp.local."

/-- The `router_info == '"Dante Via"'` check (shared by both loops). -/
def routerInfoStep (d : Device) (r : ServiceRecord) : Device :=
  if lookupAL r.props (chars "router_info") = some (chars "\"Dante Via\"") then
    { d with software := some (chars "Dante Via") }
  else d

/-- Coordinator order after `rate`: `latency_ns`, then `router_info`; a bad
integer raises and the per-record `except` skips the rest of this record. -/
def coordLatencyStep (d : Device) (r : ServiceRecord) : Device :=
  match lookupAL r.props (chars "latency_ns") with
  | none => routerInfoStep d r
  | some v =>
    match parsePyInt v with
    | none => d
    | some n => routerInfoStep { d with latency := some n } r

/-- Coordinator `rate` handling (`int(props["rate"])` may raise). -/
def coordRateStep (d : Device) (r : ServiceRecord) : Device :=
  match lookupAL r.props (chars "rate") with
  | none => coordLatencyStep d r
  | some v =>
    match parsePyInt v with
    | none => d
    | some n => coordLatencyStep { d with sample_rate := some n } r

/-- One record's property merge in the coordinator's resolution loop
(`_async_update_data` lines 110-124; the surrounding per-record `try`
confines a parse failure to the rest of this record). -/
def coordApplyRecord (d : Device) (r : ServiceRecord) : Device :=
  let d1 :=
    if d.ipv4 = none ∨ d.ipv4 = some [] then { d with ipv4 := some r.ipv4 } else d
  let d2 :=
    if (lookupAL r.props (chars "id")).isSome ∧ containsSub r.stype serviceCMC then
      { d1 with mac_address := lookupAL r.props (chars "id") }
    else d1
  let d3 :=
    match lookupAL r.props (chars "model") with
    | some v => { d2 with model_id := some v }
    | none => d2
  coordRateStep d3 r

/-- The coordinator's consolidation of one host group: fold the per-record
merge over the group's records in resolution order. -/
def consolidateDevice (host : List Char) (recs : List ServiceRecord) : Device :=
  recs.foldl coordApplyRecord (initDevice host)

/-- Browser `latency_ns` handling (last step of its record merge). -/
def browserLatencyStep (d : Device) (r : ServiceRecord) : Device × Bool :=
  match lookupAL r.props (chars "latency_ns") with
  | none => (d, false)
  | some v =>
    match parsePyInt v with
    | none => (d, true)
    | some n => ({ d with latency := some n }, false)

/-- Browser order after `model`: `rate`, then `router_info`, then
`latency_ns`; the boolean reports a raised `ValueError`. -/
def browserRateStep (d : Device) (r : ServiceRecord) : Device × Bool :=
  match lookupAL r.props (chars "rate") with
  | none => browserLatencyStep (routerInfoStep d r) r
  | some v =>
    match parsePyInt v with
    | none => (d, true)
    | some n => browserLatencyStep (routerInfoStep { d with sample_rate := some n } r) r

/-- One record's property merge in `DanteBrowser._browse` (lines 138-161).
The returned boolean is `true` when the record raised, which aborts the
whole group's loop (the `try` wraps the loop, not the record). -/
def browserApplyRecord (d : Device) (r : ServiceRecord) : Device × Bool :=
  let d1 :=
    if d.ipv4 = none ∨ d.ipv4 = some [] then { d with ipv4 := some r.ipv4 } else d
  let d2 :=
    if (lookupAL r.props (chars "id")).isSome ∧ r.stype = serviceCMC then
      { d1 with mac_address := lookupAL r.props (chars "id") }
    else d1
  let d3 :=
    match lookupAL r.props (chars "model") with
    | some v => { d2 with model_id := some v }
    | none => d2
  browserRateStep d3 r

/-- The group loop of `DanteBrowser._browse`: a raised record ends the
merge (its exception is caught outside the loop); the device built so far
is still registered. -/
def browserGroupGo (d : Device) : List ServiceRecord → Device
  | [] => d
  | r :: t =>
    match browserApplyRecord d r with
    | (d', true) => d'
    | (d', false) => browserGroupGo d' t

/-- `DanteBrowser._browse`'s consolidation of one host group. -/
def browserBuildDevice (host : List Char) (recs : List ServiceRecord) : Device :=
  browserGroupGo (initDevice host) recs

/-- `true` exactly when merging this record raises (`int()` on a bad
`rate`, or on a bad `latency_ns` when `rate` did not raise first). -/
def recordThrows (r : ServiceRecord) : Bool :=
  (match lookupAL r.props (chars "rate") with
   | some v => (parsePyInt v).isNone
   | none => false) ||
  (match lookupAL r.props (chars "latency_ns") with
   | some v => (parsePyInt v).isNone
   | none => false)

/-- `server_name.rstrip(".")` then strip a `.local` suffix. -/
def normalizeServerName (s : List Char) : List Char :=
  let s1 := (s.reverse.dropWhile (fun c => c = '.')).reverse
  if (chars ".local").isSuffixOf s1 then s1.take (s1.length - 6) else s1

/-- Group resolved records by normalized host, keyed inside the group by
instance name (the `device_hosts` dict of dicts). -/
def groupByHost (recs : List ServiceRecord) :
    List (List Char × List (List Char × ServiceRecord)) :=
  recs.foldl
    (fun groups r =>
      let h := normalizeServerName r.server_name
      let g := (lookupAL groups h).getD []
      insertAL groups h (insertAL g r.sname r))
    []

/-- Group records by host and consolidate each group (coordinator merge). -/
def consolidateAll (recs : List ServiceRecord) : List (List Char × Device) :=
  (groupByHost recs).map (fun p => (p.1, consolidateDevice p.1 (p.2.map Prod.snd)))

/-! ## Reconciliation engine (`_reconcile_aes67_subscriptions`) -/

/-- One device-reported subscription entry of the published snapshot. -/
structure SubData where
  rx_channel_name : Option (List Char)
  tx_channel_name : Option (List Char)
  tx_device_name : Option (List Char)
  status_code : Option Int
deriving DecidableEq, Repr

/-- The slice of one device's snapshot the reconciliation engine reads. -/
structure DevData where
  rx_channels : List (Nat × Option (List Char))
  subscriptions : List SubData
deriving DecidableEq, Repr

/-- `_aes67_selections`: (device name, rx channel number) → display string. -/
abbrev SelectionMap := List ((List Char × Nat) × List Char)

/-- The `origin_ip → (session_name, StreamInfo)` lookup table (only truthy
addresses are keyed). -/
def buildIpTable (streams : List (List Char × StreamInfo)) :
    List (List Char × (List Char × StreamInfo)) :=
  streams.foldl
    (fun tb p =>
      match p.2.origin_ip with
      | some s => if s ≠ [] then insertAL tb s (p.1, p.2) else tb
      | none => tb)
    []

/-- The `multicast_addr → (session_name, StreamInfo)` lookup table. -/
def buildMcastTable (streams : List (List Char × StreamInfo)) :
    List (List Char × (List Char × StreamInfo)) :=
  streams.foldl
    (fun tb p =>
      match p.2.multicast_addr with
      | some s => if s ≠ [] then insertAL tb s (p.1, p.2) else tb
      | none => tb)
    []

/-- The rx-channel-number search: first channel whose name equals the
subscription's `rx_channel_name`. -/
def findRxNum : List (Nat × Option (List Char)) → Option (List Char) → Option Nat
  | [], _ => none
  | (num, cn) :: t, nm => if cn = nm then some num else findRxNum t nm

/-- Python `f"...{x}..."` of a value that may be `None`. -/
def optStr : Option (List Char) → List Char
  | some s => s
  | none => chars "None"

/-- The channel display label for a present `tx_channel_name`: a literal
name match, else a 1-based index, else the stream's first channel name. -/
def chDisplayFor (chNames : List (List Char)) (tc : List Char) :
    Option (List Char) :=
  if tc ∈ chNames then some tc
  else
    let viaIdx :=
      match parsePyInt tc with
      | some i =>
        if 0 ≤ i - 1 ∧ i - 1 < (chNames.length : Int) then
          some (chNames.getD (i - 1).toNat [])
        else none
      | none => none
    match viaIdx with
    | some x => some x
    | none => chNames.head?

/-- `f"[AES67] {stream_name} - {ch_display}"`. -/
def displayString (streamName : List Char) (disp : Option (List Char)) :
    List Char :=
  chars "[AES67] " ++ streamName ++ chars " - " ++ optStr disp

/-- Process one subscription.  `Except.error` models the uncaught
`TypeError` of `int(None)` when `tx_channel_name` is `None` and a stream
and rx channel matched on a fresh key: the selections built so far are
kept, the rest of the run is abandoned. -/
def procSub (tbIp tbMc : List (List Char × (List Char × StreamInfo)))
    (devName : List Char) (dd : DevData) (sel : SelectionMap) (sub : SubData) :
    Except SelectionMap SelectionMap :=
  let mtch :=
    match sub.tx_device_name with
    | some s => (lookupAL tbIp s).or (lookupAL tbMc s)
    | none => none
  match mtch with
  | none => Except.ok sel
  | some (streamName, info) =>
    match findRxNum dd.rx_channels sub.rx_channel_name with
    | none => Except.ok sel
    | some rxNum =>
      if (lookupAL sel (devName, rxNum)).isSome then Except.ok sel
      else
        let chNames := getChannelNames info
        match sub.tx_channel_name with
        | none => Except.error sel
        | some tc =>
          Except.ok
            (insertAL sel (devName, rxNum)
              (displayString streamName (chDisplayFor chNames tc)))

/-- The subscription loop of one device. -/
def procSubs (tbIp tbMc : List (List Char × (List Char × StreamInfo)))
    (devName : List Char) (dd : DevData) :
    SelectionMap → List SubData → Except SelectionMap SelectionMap
  | sel, [] => Except.ok sel
  | sel, sub :: t =>
    match procSub tbIp tbMc devName dd sel sub with
    | Except.ok s' => procSubs tbIp tbMc devName dd s' t
    | Except.error s' => Except.error s'

/-- The device loop over the published snapshot. -/
def procDevs (tbIp tbMc : List (List Char × (List Char × StreamInfo))) :
    SelectionMap → List (List Char × DevData) → Except SelectionMap SelectionMap
  | sel, [] => Except.ok sel
  | sel, (dn, dd) :: t =>
    match procSubs tbIp tbMc dn dd sel dd.subscriptions with
    | Except.ok s' => procDevs tbIp tbMc s' t
    | Except.error s' => Except.error s'

/-- `_reconcile_aes67_subscriptions`: the final `_aes67_selections` state
(whether or not the run was cut short by the uncaught `TypeError`). -/
def reconcileSelections (streams : List (List Char × StreamInfo))
    (result : List (List Char × DevData)) (sel : SelectionMap) : SelectionMap :=
  match procDevs (buildIpTable streams) (buildMcastTable streams) sel result with
  | Except.ok s => s
  | Except.error s => s

/-! ## Stream cache (`_discover_sap_streams` and the merge in
`_async_update_data`) -/

/-- `_discover_sap_streams` on the datagrams one listen window received:
parsed packets are keyed by session name, failures are skipped. -/
def discoverSapStreams (pkts : List (List Nat)) : List (List Char × StreamInfo) :=
  pkts.foldl
    (fun st d =>
      match parseSapPacket d with
      | some info => insertAL st info.session_name info
      | none => st)
    []

/-- `self._aes67_streams.update(new_streams)`. -/
def mergeStreams (cache nw : List (List Char × StreamInfo)) :
    List (List Char × StreamInfo) :=
  nw.foldl (fun c p => insertAL c p.1 p.2) cache

/-- One refresh cycle's effect on the stream cache: discover, then merge
(the merge is skipped when nothing new was found). -/
def sapCycleStep (cache : List (List Char × StreamInfo))
    (pkts : List (List Nat)) : List (List Char × StreamInfo) :=
  let nw := discoverSapStreams pkts
  if nw.isEmpty then cache else mergeStreams cache nw

/-! ## The scenario-A stream and further sanity checks -/

/-- The SAP/SDP text of the spec's scenario A (with the `o=` line of the
source's own example). -/
def scenarioASdp : List Char :=
  chars "v=0\no=nax 821074694 127 IN IP4 10.11.7.71\ns=Studio A\nc=IN IP4 239.69.85.220/32\nm=audio 5004 RTP/AVP 97\na=rtpmap:97 L24/48000/2\ni=2 channels: Tx Left, Tx Right"

/-- The StreamInfo scenario A parses to. -/
def scenarioAInfo : StreamInfo :=
  { session_name := chars "Studio A", session_id := some 821074694,
    origin_ip := some (chars "10.11.7.71"),
    multicast_addr := some (chars "239.69.85.220"), port := some 5004,
    codec := some (chars "L24/48000/2"), channels := 2,
    channel_info := some (chars "2 channels: Tx Left, Tx Right") }

example : parseSdp scenarioASdp = some scenarioAInfo := by decide

example : getChannelNames scenarioAInfo = [chars "Tx Left", chars "Tx Right"] := by
  decide

example :
    (buildAes67SubscribeCommand 3 1 scenarioAInfo 42).map List.length =
      some 112 := by decide

example :
    (buildAes67SubscribeCommand 3 1 scenarioAInfo 42).map
        (fun p => (p.getD 0 0, p.getD 1 0, p.getD 96 0, p.getD 97 0, p.drop 108)) =
      some (40, 9, 0, 3, [239, 69, 85, 220]) := by decide

/-! ## Association-list lemmas -/

/-- The key list of an association list. -/
def keysAL {α β : Type} : List (α × β) → List α
  | [] => []
  | (k, _) :: t => k :: keysAL t

theorem keysAL_cons {α β : Type} (k : α) (v : β) (t : List (α × β)) :
    keysAL ((k, v) :: t) = k :: keysAL t := rfl

theorem lookupAL_insertAL_self {α β : Type} [DecidableEq α]
    (l : List (α × β)) (k : α) (v : β) :
    lookupAL (insertAL l k v) k = some v := by
  induction l with
  | nil => simp [insertAL, lookupAL]
  | cons p t ih =>
    obtain ⟨k', v'⟩ := p
    by_cases h : k' = k
    · simp [insertAL, lookupAL, h]
    · simp [insertAL, lookupAL, h, ih]

theorem lookupAL_insertAL_ne {α β : Type} [DecidableEq α]
    (l : List (α × β)) (k' k : α) (v : β) (h : k' ≠ k) :
    lookupAL (insertAL l k' v) k = lookupAL l k := by
  induction l with
  | nil => simp [insertAL, lookupAL, h]
  | cons p t ih =>
    obtain ⟨k₁, v₁⟩ := p
    by_cases h₁ : k₁ = k'
    · subst h₁
      simp [insertAL, lookupAL, h, Ne.symm h]
    · simp only [insertAL, if_neg h₁, lookupAL]
      by_cases h₂ : k₁ = k <;> simp [h₂, ih]

theorem lookupAL_eq_none_iff {α β : Type} [DecidableEq α]
    (l : List (α × β)) (k : α) :
    lookupAL l k = none ↔ k ∉ keysAL l := by
  induction l with
  | nil => simp [lookupAL, keysAL]
  | cons p t ih =>
    obtain ⟨k₁, v₁⟩ := p
    by_cases h₁ : k₁ = k
    · subst h₁
      simp [lookupAL, keysAL]
    · simp [lookupAL, keysAL, h₁, ih, Ne.symm h₁]

theorem keysAL_insertAL {α β : Type} [DecidableEq α]
    (l : List (α × β)) (k : α) (v : β) :
    keysAL (insertAL l k v) =
      if k ∈ keysAL l then keysAL l else keysAL l ++ [k] := by
  induction l with
  | nil => simp [insertAL, keysAL]
  | cons p t ih =>
    obtain ⟨k₁, v₁⟩ := p
    by_cases h₁ : k₁ = k
    · subst h₁
      simp [insertAL, keysAL]
    · simp only [insertAL, if_neg h₁, keysAL_cons, ih]
      by_cases h₂ : k ∈ keysAL t <;>
        simp [h₂, Ne.symm h₁, List.mem_cons]

theorem nodup_keysAL_insertAL {α β : Type} [DecidableEq α]
    (l : List (α × β)) (k : α) (v : β)
    (h : (keysAL l).Nodup) : (keysAL (insertAL l k v)).Nodup := by
  rw [keysAL_insertAL]
  by_cases hm : k ∈ keysAL l
  · simpa [hm] using h
  · simp only [hm, if_false]
    simp [List.nodup_append, h, hm]

theorem lookupAL_foldl_insert_not_mem {α β : Type} [DecidableEq α]
    (l : List (α × β)) (c : List (α × β)) (k : α)
    (h : k ∉ keysAL l) :
    lookupAL (l.foldl (fun acc p => insertAL acc p.1 p.2) c) k = lookupAL c k := by
  induction l generalizing c with
  | nil => rfl
  | cons p t ih =>
    obtain ⟨k₁, v₁⟩ := p
    simp [keysAL] at h
    push_neg at h
    simp only [List.foldl_cons]
    rw [ih _ h.2, lookupAL_insertAL_ne _ _ _ _ (Ne.symm h.1)]

theorem lookupAL_foldl_insert_isSome {α β : Type} [DecidableEq α]
    (l : List (α × β)) (c : List (α × β)) (k : α)
    (h : (lookupAL c k).isSome) :
    (lookupAL (l.foldl (fun acc p => insertAL acc p.1 p.2) c) k).isSome := by
  induction l generalizing c with
  | nil => exact h
  | cons p t ih =>
    simp only [List.foldl_cons]
    refine ih _ ?_
    by_cases hk : p.1 = k
    · rw [hk, lookupAL_insertAL_self]; rfl
    · rwa [lookupAL_insertAL_ne _ _ _ _ hk]

theorem lookupAL_foldl_insert_of_lookup {α β : Type} [DecidableEq α]
    (l : List (α × β)) (c : List (α × β)) (k : α) (v : β)
    (hnd : (keysAL l).Nodup) (h : lookupAL l k = some v) :
    lookupAL (l.foldl (fun acc p => insertAL acc p.1 p.2) c) k = some v := by
  induction l generalizing c with
  | nil => simp [lookupAL] at h
  | cons p t ih =>
    obtain ⟨k₁, v₁⟩ := p
    rw [keysAL_cons] at hnd
    simp only [List.nodup_cons] at hnd
    simp only [List.foldl_cons]
    by_cases hk : k₁ = k
    · subst hk
      simp [lookupAL] at h
      subst h
      rw [lookupAL_foldl_insert_not_mem t _ k₁ hnd.1]
      exact lookupAL_insertAL_self _ _ _
    · simp only [lookupAL, if_neg hk] at h
      exact ih _ hnd.2 h

/-! ## Stream-cache lemmas and claim C5 -/

theorem keysAL_nodup_discover_aux (pkts : List (List Nat))
    (st : List (List Char × StreamInfo)) (h : (keysAL st).Nodup) :
    (keysAL (pkts.foldl
      (fun st d =>
        match parseSapPacket d with
        | some info => insertAL st info.session_name info
        | none => st) st)).Nodup := by
  induction pkts generalizing st with
  | nil => exact h
  | cons d t ih =>
    simp only [List.foldl_cons]
    cases parseSapPacket d with
    | none => exact ih _ h
    | some info => exact ih _ (nodup_keysAL_insertAL _ _ _ h)

/-- A discovered-streams dictionary has duplicate-free keys. -/
theorem keysAL_nodup_discover (pkts : List (List Nat)) :
    (keysAL (discoverSapStreams pkts)).Nodup :=
  keysAL_nodup_discover_aux pkts [] (by simp [keysAL])

/-- C5: the stream cache is monotone over refresh cycles: a cached
session name survives every later SAP window (a miss never removes it),
and a window that re-announces a session name overwrites that cache entry
with the newly parsed StreamInfo. -/
theorem claimC5_cache_monotone (cache : List (List Char × StreamInfo))
    (windows : List (List (List Nat))) (k : List Char)
    (h : (lookupAL cache k).isSome) :
    (lookupAL (windows.foldl sapCycleStep cache) k).isSome ∧
    (∀ (cache2 : List (List Char × StreamInfo)) (pkts : List (List Nat))
        (info : StreamInfo),
      lookupAL (discoverSapStreams pkts) k = some info →
      lookupAL (sapCycleStep cache2 pkts) k = some info) := by
  constructor
  · induction windows generalizing cache with
    | nil => exact h
    | cons w t ih =>
      simp only [List.foldl_cons]
      refine ih _ ?_
      unfold sapCycleStep
      by_cases he : (discoverSapStreams w).isEmpty
      · simpa [he] using h
      · simpa [he] using
          lookupAL_foldl_insert_isSome (discoverSapStreams w) cache k h
  · intro cache2 pkts info hlk
    unfold sapCycleStep
    have hne : (discoverSapStreams pkts).isEmpty = false := by
      cases hd : discoverSapStreams pkts with
      | nil => rw [hd] at hlk; simp [lookupAL] at hlk
      | cons p t => simp [hd]
    simp only [hne, Bool.false_eq_true, if_false]
    exact lookupAL_foldl_insert_of_lookup _ _ _ _ (keysAL_nodup_discover pkts) hlk

/-- A SAP announcement of session `"S"` (version 1, IPv4, no auth). -/
def sapPktS : List Nat := [32, 0, 0, 0, 0, 0, 0, 0] ++ asciiBytes "v=0\ns=S"

/-- Witness for C5 at a one-entry cache and one re-announcing window. -/
theorem claimC5_cache_monotone_witness :
    (lookupAL [(chars "S", scenarioAInfo)] (chars "S")).isSome ∧
      ((lookupAL ([[sapPktS]].foldl sapCycleStep
          [(chars "S", scenarioAInfo)]) (chars "S")).isSome ∧
        (∀ (cache2 : List (List Char × StreamInfo)) (pkts : List (List Nat))
            (info : StreamInfo),
          lookupAL (discoverSapStreams pkts) (chars "S") = some info →
          lookupAL (sapCycleStep cache2 pkts) (chars "S") = some info)) :=
  ⟨by decide,
    claimC5_cache_monotone [(chars "S", scenarioAInfo)] [[sapPktS]] (chars "S")
      (by decide)⟩

/-! ## Claim C3: acknowledgement decoding -/

/-- C3: the AES67 subscribe response is accepted as success exactly when
it has at least 10 bytes, starts with `0x28 0x01`, and its big-endian
16-bit status at offset 8 equals 1; a structurally valid response with any
other status yields a failure carrying that status; and a socket timeout
is a failure kind distinct from both protocol-mismatch kinds. -/
theorem claimC3_ack_decoding (r? : Option (List Nat)) :
    (decodeAes67Response r? = Aes67SubscribeResult.success ↔
      ∃ resp, r? = some resp ∧ resp.length ≥ 10 ∧ resp.getD 0 0 = 40 ∧
        resp.getD 1 0 = 1 ∧ resp.getD 8 0 * 256 + resp.getD 9 0 = 1) ∧
    (∀ resp, r? = some resp → resp.length ≥ 10 → resp.getD 0 0 = 40 →
      resp.getD 1 0 = 1 → resp.getD 8 0 * 256 + resp.getD 9 0 ≠ 1 →
      decodeAes67Response r? =
        Aes67SubscribeResult.statusFailure
          (resp.getD 8 0 * 256 + resp.getD 9 0)) ∧
    decodeAes67Response none = Aes67SubscribeResult.timeout ∧
    (∀ st, Aes67SubscribeResult.timeout ≠
      Aes67SubscribeResult.statusFailure st) ∧
    Aes67SubscribeResult.timeout ≠ Aes67SubscribeResult.unexpectedResponse := by
  refine ⟨?_, ?_, rfl, fun st => by simp, by simp⟩
  · constructor
    · intro h
      cases r? with
      | none => exact Aes67SubscribeResult.noConfusion h
      | some resp =>
        refine ⟨resp, rfl, ?_⟩
        simp only [decodeAes67Response] at h
        split at h
        · rename_i hstr
          split at h
          · rename_i hst
            exact ⟨hstr.1, hstr.2.1, hstr.2.2, hst⟩
          · exact Aes67SubscribeResult.noConfusion h
        · exact Aes67SubscribeResult.noConfusion h
    · rintro ⟨resp, rfl, hlen, h0, h1, hst⟩
      simp only [decodeAes67Response]
      rw [if_pos ⟨hlen, h0, h1⟩]
      simp only [hst]
      rfl
  · rintro resp rfl hlen h0 h1 hne
    simp only [decodeAes67Response]
    rw [if_pos ⟨hlen, h0, h1⟩]
    simp only [if_neg hne]

/-- A structurally valid acknowledgement with status 5. -/
def ackStatus5 : List Nat := [40, 1, 0, 0, 0, 0, 0, 0, 0, 5]

/-- Witness for C3: status 5 is surfaced as a status failure carrying 5. -/
theorem claimC3_ack_decoding_witness :
    decodeAes67Response (some ackStatus5) =
      Aes67SubscribeResult.statusFailure
        (ackStatus5.getD 8 0 * 256 + ackStatus5.getD 9 0) :=
  (claimC3_ack_decoding (some ackStatus5)).2.1 ackStatus5 rfl (by decide)
    (by decide) (by decide) (by decide)

/-! ## Codec lemmas and claims C2 and C10 -/

theorem inetAton_length (s : List Char) (ip : List Nat)
    (h : inetAton s = some ip) : ip.length = 4 := by
  unfold inetAton at h
  split at h
  · split at h
    · rw [Option.some_inj] at h
      subst h
      rfl
    · simp at h
  · simp at h

theorem inetAtonOpt_length (o : Option (List Char)) (ip : List Nat)
    (h : inetAtonOpt o = some ip) : ip.length = 4 := by
  cases o with
  | none => simp [inetAtonOpt] at h
  | some s => exact inetAton_length s ip h

theorem writeBytesAt_length (pkt : List Nat) (off : Nat) (bs : List Nat)
    (h : off + bs.length ≤ pkt.length) :
    (writeBytesAt pkt off bs).length = pkt.length := by
  simp [writeBytesAt]
  omega

theorem applyWrites_length (ws : List (Nat × List Nat)) (pkt : List Nat)
    (h : ∀ w ∈ ws, w.1 + w.2.length ≤ pkt.length) :
    (applyWrites pkt ws).length = pkt.length := by
  induction ws generalizing pkt with
  | nil => rfl
  | cons w ws ih =>
    have hl := writeBytesAt_length pkt w.1 w.2 (h w (by simp))
    rw [applyWrites,
      ih (writeBytesAt pkt w.1 w.2) (fun w' hw' => by
        rw [hl]; exact h w' (List.mem_cons_of_mem _ hw'))]
    exact hl

theorem buildAes67Core_length (sip mip : List Nat)
    (flowId rx fc enc ch pt seq : Nat)
    (hsl : sip.length = 4) (hml : mip.length = 4) :
    (buildAes67Core sip mip flowId rx fc enc ch pt seq).length = 112 := by
  unfold buildAes67Core
  rw [applyWrites_length _ _ ?_, List.length_replicate]
  intro w hw
  simp only [List.length_replicate]
  simp only [List.mem_cons, List.not_mem_nil, or_false] at hw
  rcases hw with rfl | rfl | rfl | rfl | rfl | rfl | rfl | rfl | rfl | rfl |
    rfl | rfl | rfl | rfl | rfl | rfl | rfl | rfl | rfl | rfl | rfl | rfl <;>
    simp [be16, be32, hsl, hml]

/-- Validity of the build inputs gives a frame, and the frame has exactly
112 bytes (shared by the C2 and C10 theorems). -/
theorem buildAes67_valid (rx fc seq : Nat) (info : StreamInfo)
    (h1 : (inetAtonOpt info.origin_ip).isSome)
    (h2 : (inetAtonOpt info.multicast_addr).isSome)
    (h3 : info.session_id.isSome)
    (h4 : ∃ p, info.port = some p ∧ 0 ≤ p ∧ p < 65536)
    (h5 : 0 ≤ info.channels ∧ info.channels < 256)
    (hrx : rx < 65536) (hfc : fc < 256) (hseq : seq < 65536) :
    ∃ pkt, buildAes67SubscribeCommand rx fc info seq = some pkt ∧
      pkt.length = 112 := by
  obtain ⟨sip, hsip⟩ := Option.isSome_iff_exists.1 h1
  obtain ⟨mip, hmip⟩ := Option.isSome_iff_exists.1 h2
  obtain ⟨sid, hsid⟩ := Option.isSome_iff_exists.1 h3
  obtain ⟨p, hp, hp0, hp1⟩ := h4
  have hsl : sip.length = 4 := inetAtonOpt_length _ _ hsip
  have hml : mip.length = 4 := inetAtonOpt_length _ _ hmip
  unfold buildAes67SubscribeCommand
  simp only [hsip, hmip, hsid, hp]
  rw [if_pos ⟨hrx, hfc, hseq, hp0, hp1, h5.1, h5.2⟩]
  exact ⟨_, rfl, buildAes67Core_length _ _ _ _ _ _ _ _ _ hsl hml⟩

/-- C2: for every rx channel, flow channel and sequence number in the
command's field widths (uint16, uint8, uint16) and every StreamInfo with
valid origin and multicast addresses, session id, port and channel count,
`_build_aes67_subscribe_command` returns exactly 112 bytes; at the
scenario-A stream with rx=3, flow=1, seq=42 the frame starts `0x28 0x09`,
carries 3 big-endian at bytes 96-97, and ends with the 4 bytes of
`239.69.85.220`. -/
theorem claimC2_subscribe_frame (rx fc seq : Nat) (info : StreamInfo)
    (h1 : (inetAtonOpt info.origin_ip).isSome)
    (h2 : (inetAtonOpt info.multicast_addr).isSome)
    (h3 : info.session_id.isSome)
    (h4 : ∃ p, info.port = some p ∧ 0 ≤ p ∧ p < 65536)
    (h5 : 0 ≤ info.channels ∧ info.channels < 256)
    (hrx : rx < 65536) (hfc : fc < 256) (hseq : seq < 65536) :
    ∃ pkt, buildAes67SubscribeCommand rx fc info seq = some pkt ∧
      pkt.length = 112 ∧
      (rx = 3 → fc = 1 → seq = 42 → info = scenarioAInfo →
        pkt.getD 0 0 = 40 ∧ pkt.getD 1 0 = 9 ∧ pkt.getD 96 0 = 0 ∧
          pkt.getD 97 0 = 3 ∧ pkt.drop 108 = [239, 69, 85, 220]) := by
  obtain ⟨pkt, hb, hl⟩ :=
    buildAes67_valid rx fc seq info h1 h2 h3 h4 h5 hrx hfc hseq
  refine ⟨pkt, hb, hl, ?_⟩
  rintro rfl rfl rfl rfl
  have hconc :
      (buildAes67SubscribeCommand 3 1 scenarioAInfo 42).map
        (fun q => (q.getD 0 0, q.getD 1 0, q.getD 96 0, q.getD 97 0,
          q.drop 108)) = some (40, 9, 0, 3, [239, 69, 85, 220]) := by decide
  rw [hb] at hconc
  simp only [Option.map_some', Option.some_inj, Prod.mk.injEq] at hconc
  exact ⟨hconc.1, hconc.2.1, hconc.2.2.1, hconc.2.2.2.1, hconc.2.2.2.2⟩

/-- Witness for C2 at the scenario-B inputs. -/
theorem claimC2_subscribe_frame_witness :
    ∃ pkt, buildAes67SubscribeCommand 3 1 scenarioAInfo 42 = some pkt ∧
      pkt.length = 112 ∧ pkt.getD 0 0 = 40 ∧ pkt.getD 1 0 = 9 ∧
      pkt.getD 96 0 = 0 ∧ pkt.getD 97 0 = 3 ∧
      pkt.drop 108 = [239, 69, 85, 220] := by
  obtain ⟨pkt, hb, hl, hs⟩ :=
    claimC2_subscribe_frame 3 1 42 scenarioAInfo (by decide) (by decide)
      (by decide) ⟨5004, rfl, by decide, by decide⟩ ⟨by decide, by decide⟩
      (by decide) (by decide) (by decide)
  obtain ⟨a, b, c, d, e⟩ := hs rfl rfl rfl rfl
  exact ⟨pkt, hb, hl, a, b, c, d, e⟩

/-- A SAP announcement whose SDP carries only a session name. -/
def sapPktOnlyName : List Nat := [32, 0, 0, 0, 0, 0, 0, 0] ++ asciiBytes "v=0\ns=X"

/-- The StreamInfo `sapPktOnlyName` parses to. -/
def infoOnlyName : StreamInfo :=
  { session_name := chars "X", session_id := none, origin_ip := none,
    multicast_addr := none, port := none, codec := none, channels := 1,
    channel_info := none }

/-- C10: the subscribe encoder is partial at the public interface — it
raises (returns no frame) whenever origin_ip, multicast_addr, session_id
or port is absent; yet the SDP parser accepts, the stream cache retains,
and the source listing offers a stream carrying only a session name; the
112-byte guarantee holds only under the validity preconditions. -/
theorem claimC10_partial_encoder :
    (∀ (rx fc seq : Nat) (info : StreamInfo),
        info.origin_ip = none ∨ info.multicast_addr = none ∨
          info.session_id = none ∨ info.port = none →
        buildAes67SubscribeCommand rx fc info seq = none) ∧
    (parseSapPacket sapPktOnlyName = some infoOnlyName ∧
      infoOnlyName.origin_ip = none ∧ infoOnlyName.multicast_addr = none ∧
      infoOnlyName.session_id = none ∧ infoOnlyName.port = none ∧
      lookupAL (sapCycleStep [] [sapPktOnlyName]) (chars "X") =
        some infoOnlyName ∧
      getAllAes67Sources (sapCycleStep [] [sapPktOnlyName]) =
        [chars "[AES67] X - Mono"] ∧
      ∀ (rx fc seq : Nat),
        buildAes67SubscribeCommand rx fc infoOnlyName seq = none) ∧
    (∀ (rx fc seq : Nat) (info : StreamInfo),
      (inetAtonOpt info.origin_ip).isSome →
      (inetAtonOpt info.multicast_addr).isSome →
      info.session_id.isSome →
      (∃ p, info.port = some p ∧ 0 ≤ p ∧ p < 65536) →
      0 ≤ info.channels ∧ info.channels < 256 →
      rx < 65536 → fc < 256 → seq < 65536 →
      ∃ pkt, buildAes67SubscribeCommand rx fc info seq = some pkt ∧
        pkt.length = 112) := by
  refine ⟨?_, ⟨by decide, rfl, rfl, rfl, rfl, by decide, by decide,
    fun rx fc seq => rfl⟩, ?_⟩
  · intro rx fc seq info h
    unfold buildAes67SubscribeCommand
    rcases h with h | h | h | h
    · simp [h, inetAtonOpt]
    · cases ho : inetAtonOpt info.origin_ip <;>
        simp [ho, h, inetAtonOpt]
    · cases ho : inetAtonOpt info.origin_ip <;>
        cases hm : inetAtonOpt info.multicast_addr <;>
        simp [ho, hm, h]
    · cases ho : inetAtonOpt info.origin_ip <;>
        cases hm : inetAtonOpt info.multicast_addr <;>
        cases hs : info.session_id <;>
        simp [ho, hm, hs, h]
  · intro rx fc seq info h1 h2 h3 h4 h5 hrx hfc hseq
    exact buildAes67_valid rx fc seq info h1 h2 h3 h4 h5 hrx hfc hseq

/-- Witness for C10: a stream with no origin address yields no frame. -/
theorem claimC10_partial_encoder_witness :
    infoOnlyName.origin_ip = none ∧
      buildAes67SubscribeCommand 1 1 infoOnlyName 1 = none :=
  ⟨rfl, claimC10_partial_encoder.1 1 1 1 infoOnlyName (Or.inl rfl)⟩

/-! ## SDP session-name lemmas and claim C1 -/

/-- The content of the last `s=` line of an SDP text (what the line fold
leaves in `session_name`). -/
def lastSessionNameOf (t : List Char) : Option (List Char) :=
  (pySplitlines (pyStrip t)).foldl
    (fun a l =>
      if (chars "s=").isPrefixOf (pyStrip l) then some ((pyStrip l).drop 2)
      else a)
    none

theorem parseSdpLine_session (acc : SdpAcc) (l : List Char) :
    (parseSdpLine acc l).session_name =
      if (chars "s=").isPrefixOf (pyStrip l) then some ((pyStrip l).drop 2)
      else acc.session_name := by
  unfold parseSdpLine
  by_cases h1 : (chars "s=").isPrefixOf (pyStrip l) = true
  · simp [h1]
  · simp only [h1, Bool.false_eq_true, if_false]
    repeat' split
    all_goals rfl

theorem foldl_parseSdpLine_session (lines : List (List Char)) (acc : SdpAcc) :
    (lines.foldl parseSdpLine acc).session_name =
      lines.foldl
        (fun a l =>
          if (chars "s=").isPrefixOf (pyStrip l) then some ((pyStrip l).drop 2)
          else a)
        acc.session_name := by
  induction lines generalizing acc with
  | nil => rfl
  | cons l t ih =>
    simp only [List.foldl_cons]
    rw [ih, parseSdpLine_session]

theorem parseSdp_of_lastSession (t nm : List Char)
    (h : lastSessionNameOf t = some nm) (hne : nm ≠ []) :
    ∃ info, parseSdp t = some info ∧ info.session_name = nm := by
  have hs : ((pySplitlines (pyStrip t)).foldl parseSdpLine sdpInit).session_name
      = some nm := by
    rw [foldl_parseSdpLine_session]
    exact h
  simp only [parseSdp]
  rw [hs]
  simp only [if_neg hne]
  exact ⟨_, rfl, rfl⟩

/-- C1 (amended): for every SAP datagram that passes the framing checks
(version 1, announcement, payload offset inside the packet, MIME skip
finds the SDP text) and whose last `s=` line has nonempty content,
`_parse_sap_packet` returns a StreamInfo whose session name is that
content; every packet whose version is not 1 or whose message type is
deletion yields none. -/
theorem claimC1_sap_parse :
    (∀ (data : List Nat) (t nm : List Char),
        sapPayloadText data = some t →
        lastSessionNameOf t = some nm → nm ≠ [] →
        ∃ info, parseSapPacket data = some info ∧ info.session_name = nm) ∧
    (∀ data : List Nat,
        sapVersionField data ≠ 1 ∨ sapMsgTypeField data ≠ 0 →
        parseSapPacket data = none) := by
  constructor
  · intro data t nm ht hs hne
    unfold parseSapPacket
    rw [ht]
    simpa using parseSdp_of_lastSession t nm hs hne
  · intro data h
    unfold sapVersionField sapMsgTypeField at h
    unfold parseSapPacket sapPayloadText
    by_cases hlen : data.length < 8
    · simp [hlen]
    · simp only [hlen, if_false]
      rw [if_pos h]
      rfl

/-- C1 as written fails: a framed announcement whose SDP text is
`"v=0\ns="` contains an `s=` line, yet the parser returns none because
the session name is empty. -/
def sapPktEmptyName : List Nat :=
  [32, 0, 0, 0, 0, 0, 0, 0] ++ asciiBytes "v=0\ns="

/-- Counterexample to C1 as stated: the packet passes the framing checks
and its SDP text has an `s=` line, but `_parse_sap_packet` returns none. -/
theorem claimC1_counterexample :
    sapPayloadText sapPktEmptyName = some (chars "v=0\ns=") ∧
    ((pySplitlines (pyStrip (chars "v=0\ns="))).any
      (fun l => (chars "s=").isPrefixOf (pyStrip l))) = true ∧
    parseSapPacket sapPktEmptyName = none := by decide

/-- Witness for C1 at a concrete announcement of session `"S"`. -/
theorem claimC1_sap_parse_witness :
    (sapPayloadText sapPktS = some (chars "v=0\ns=S") ∧
      lastSessionNameOf (chars "v=0\ns=S") = some (chars "S") ∧
      chars "S" ≠ []) ∧
    ∃ info, parseSapPacket sapPktS = some info ∧
      info.session_name = chars "S" :=
  ⟨⟨by decide, by decide, by decide⟩,
    claimC1_sap_parse.1 sapPktS (chars "v=0\ns=S") (chars "S") (by decide)
      (by decide) (by decide)⟩

/-! ## Claim C8: channel-name derivation -/

/-- C8 (amended): when `channel_info` has a colon, the names used are the
comma-separated, whitespace-trimmed, nonempty items after the first colon
provided their count equals the channel count; otherwise the fallback
table applies: Mono for 1, Left/Right for 2, Ch1..ChN for N. -/
theorem claimC8_channel_names (info : StreamInfo) :
    (∀ ci, info.channel_info = some ci → ci ≠ [] →
      containsSub ci (chars ":") = true →
      (((((splitOnChar ',' (afterFirstChar ':' ci)).map pyStrip).filter
            (fun n => n ≠ [])).length : Int) = info.channels →
        getChannelNames info =
          ((splitOnChar ',' (afterFirstChar ':' ci)).map pyStrip).filter
            (fun n => n ≠ [])) ∧
      (((((splitOnChar ',' (afterFirstChar ':' ci)).map pyStrip).filter
            (fun n => n ≠ [])).length : Int) ≠ info.channels →
        getChannelNames info = fallbackChannelNames info.channels)) ∧
    ((info.channel_info = none ∨ info.channel_info = some [] ∨
        (∀ ci, info.channel_info = some ci →
          containsSub ci (chars ":") = false)) →
      getChannelNames info = fallbackChannelNames info.channels) ∧
    (fallbackChannelNames 1 = [chars "Mono"] ∧
      fallbackChannelNames 2 = [chars "Left", chars "Right"] ∧
      ∀ n : Nat, 2 < n →
        fallbackChannelNames (n : Int) =
          (List.range n).map (fun i => chars "Ch" ++ Nat.toDigits 10 (i + 1))) := by
  refine ⟨?_, ?_, by decide, by decide, ?_⟩
  · intro ci hci hne hcol
    unfold getChannelNames
    rw [hci]
    simp only [Option.getD_some]
    rw [if_pos ⟨hne, hcol⟩]
    constructor
    · intro h
      rw [if_pos h]
    · intro h
      rw [if_neg h]
  · intro h
    unfold getChannelNames
    rcases h with h | h | h
    · simp [h]
    · simp [h, containsSub, lastOccur]
    · cases hci : info.channel_info with
      | none => simp [hci]
      | some ci =>
        have hc := h ci hci
        simp [hci, hc]
  · intro n hn
    have h1 : (n : Int) ≠ 1 := by omega
    have h2 : (n : Int) ≠ 2 := by omega
    unfold fallbackChannelNames
    rw [if_neg h1, if_neg h2]
    simp

/-- The stream of C8's counterexample: two channels but an `i=` line whose
item list contains an empty item. -/
def infoC8 : StreamInfo :=
  { session_name := chars "S", session_id := none, origin_ip := none,
    multicast_addr := none, port := none, codec := none, channels := 2,
    channel_info := some (chars "c: L,,R") }

/-- Counterexample to C8 as stated: the trimmed item count is 3, not 2, so
the claim's rule falls back to Left/Right, but the code drops the empty
item and uses the parsed names. -/
theorem claimC8_counterexample :
    ((splitOnChar ',' (afterFirstChar ':' (chars "c: L,,R"))).map
        pyStrip).length = 3 ∧
    infoC8.channels = 2 ∧
    getChannelNames infoC8 = [chars "L", chars "R"] ∧
    channelNamesClaimed infoC8 = [chars "Left", chars "Right"] ∧
    getChannelNames infoC8 ≠ channelNamesClaimed infoC8 := by decide

/-- Witness for C8 at the scenario-A stream. -/
theorem claimC8_channel_names_witness :
    getChannelNames scenarioAInfo = [chars "Tx Left", chars "Tx Right"] := by
  have h :=
    ((claimC8_channel_names scenarioAInfo).1
      (chars "2 channels: Tx Left, Tx Right") rfl (by decide) (by decide)).1
      (by decide)
  exact h.trans (by decide)

/-! ## Consolidation lemmas and claims C6 and C7 -/

theorem routerInfoStep_model (d : Device) (r : ServiceRecord) :
    (routerInfoStep d r).model_id = d.model_id := by
  unfold routerInfoStep
  split <;> rfl

theorem coordLatencyStep_model (d : Device) (r : ServiceRecord) :
    (coordLatencyStep d r).model_id = d.model_id := by
  unfold coordLatencyStep
  repeat' split
  all_goals simp [routerInfoStep_model]

theorem coordRateStep_model (d : Device) (r : ServiceRecord) :
    (coordRateStep d r).model_id = d.model_id := by
  unfold coordRateStep
  repeat' split
  all_goals simp [coordLatencyStep_model]

theorem coordApplyRecord_model_of_some (d : Device) (r : ServiceRecord)
    (v : List Char) (h : lookupAL r.props (chars "model") = some v) :
    (coordApplyRecord d r).model_id = some v := by
  unfold coordApplyRecord
  simp only [h]
  rw [coordRateStep_model]

theorem coordApplyRecord_model_of_none (d : Device) (r : ServiceRecord)
    (h : lookupAL r.props (chars "model") = none) :
    (coordApplyRecord d r).model_id = d.model_id := by
  unfold coordApplyRecord
  simp only [h]
  rw [coordRateStep_model]
  repeat' split
  all_goals rfl

theorem routerInfoStep_sample (d : Device) (r : ServiceRecord) :
    (routerInfoStep d r).sample_rate = d.sample_rate := by
  unfold routerInfoStep
  split <;> rfl

theorem coordLatencyStep_sample (d : Device) (r : ServiceRecord) :
    (coordLatencyStep d r).sample_rate = d.sample_rate := by
  unfold coordLatencyStep
  repeat' split
  all_goals simp [routerInfoStep_sample]

theorem coordApplyRecord_sample_of_parse (d : Device) (r : ServiceRecord)
    (v : List Char) (n : Int) (hr : lookupAL r.props (chars "rate") = some v)
    (hp : parsePyInt v = some n) :
    (coordApplyRecord d r).sample_rate = some n := by
  unfold coordApplyRecord coordRateStep
  simp only [hr, hp]
  rw [coordLatencyStep_sample]

theorem coordApplyRecord_sample_of_none (d : Device) (r : ServiceRecord)
    (h : lookupAL r.props (chars "rate") = none) :
    (coordApplyRecord d r).sample_rate = d.sample_rate := by
  unfold coordApplyRecord coordRateStep
  simp only [h]
  rw [coordLatencyStep_sample]
  repeat' split
  all_goals rfl

/-- The scenario-C control-management-channel record. -/
def recCmc : ServiceRecord :=
  { stype := serviceCMC, sname := chars "cmc1._netaudio-cmc._udp.local.",
    ipv4 := chars "10.0.0.2", port := 8700,
    props := [(chars "id", chars "AA:BB:CC:DD:EE:FF")],
    server_name := chars "switch1.local." }

/-- The scenario-C audio-channel-count record carrying the model. -/
def recModel : ServiceRecord :=
  { stype := chars "_netaudio-chan._udp.local.",
    sname := chars "chan1._netaudio-chan._udp.local.",
    ipv4 := chars "10.0.0.2", port := 4440,
    props := [(chars "model", chars "DAI2")],
    server_name := chars "switch1.local." }

/-- The device scenario C consolidates to. -/
def deviceC6 : Device :=
  { server_name := chars "switch1", ipv4 := some (chars "10.0.0.2"),
    mac_address := some (chars "AA:BB:CC:DD:EE:FF"),
    model_id := some (chars "DAI2"), sample_rate := none, latency := none,
    software := none }

theorem foldl_coordApply_model_of_none (post : List ServiceRecord) (d : Device)
    (hpost : ∀ q ∈ post, lookupAL q.props (chars "model") = none) :
    (post.foldl coordApplyRecord d).model_id = d.model_id := by
  induction post generalizing d with
  | nil => rfl
  | cons q t ih =>
    rw [List.foldl_cons, ih _ (fun q' h' => hpost q' (List.mem_cons_of_mem _ h')),
      coordApplyRecord_model_of_none _ _ (hpost q (List.mem_cons_self _ _))]

theorem foldl_coordApply_sample_of_none (post : List ServiceRecord) (d : Device)
    (hpost : ∀ q ∈ post, lookupAL q.props (chars "rate") = none) :
    (post.foldl coordApplyRecord d).sample_rate = d.sample_rate := by
  induction post generalizing d with
  | nil => rfl
  | cons q t ih =>
    rw [List.foldl_cons, ih _ (fun q' h' => hpost q' (List.mem_cons_of_mem _ h')),
      coordApplyRecord_sample_of_none _ _ (hpost q (List.mem_cons_self _ _))]

/-- C6: consolidation is last-write-wins per recognized property — the
model and sample-rate fields equal the value of the group's last record
carrying that property — and scenario C's two records for host
`switch1.local` consolidate into one device with the CMC record's MAC and
the other record's model. -/
theorem claimC6_last_write_wins :
    (∀ (host : List Char) (pre post : List ServiceRecord) (r : ServiceRecord)
        (v : List Char),
      lookupAL r.props (chars "model") = some v →
      (∀ q ∈ post, lookupAL q.props (chars "model") = none) →
      (consolidateDevice host (pre ++ r :: post)).model_id = some v) ∧
    (∀ (host : List Char) (pre post : List ServiceRecord) (r : ServiceRecord)
        (v : List Char) (n : Int),
      lookupAL r.props (chars "rate") = some v → parsePyInt v = some n →
      (∀ q ∈ post, lookupAL q.props (chars "rate") = none) →
      (consolidateDevice host (pre ++ r :: post)).sample_rate = some n) ∧
    consolidateAll [recCmc, recModel] = [(chars "switch1", deviceC6)] := by
  refine ⟨?_, ?_, by decide⟩
  · intro host pre post r v hr hpost
    unfold consolidateDevice
    rw [List.foldl_append, List.foldl_cons,
      foldl_coordApply_model_of_none post _ hpost,
      coordApplyRecord_model_of_some _ r v hr]
  · intro host pre post r v n hr hp hpost
    unfold consolidateDevice
    rw [List.foldl_append, List.foldl_cons,
      foldl_coordApply_sample_of_none post _ hpost,
      coordApplyRecord_sample_of_parse _ r v n hr hp]

/-- Witness for C6: the model record merged last wins. -/
theorem claimC6_last_write_wins_witness :
    (lookupAL recModel.props (chars "model") = some (chars "DAI2") ∧
      (∀ q ∈ [recCmc], lookupAL q.props (chars "model") = none)) ∧
    (consolidateDevice (chars "switch1")
        ([] ++ recModel :: [recCmc])).model_id = some (chars "DAI2") :=
  ⟨⟨by decide, by decide⟩,
    claimC6_last_write_wins.1 (chars "switch1") [] [recCmc] recModel
      (chars "DAI2") (by decide) (by decide)⟩

theorem browserApplyRecord_snd (d : Device) (r : ServiceRecord) :
    (browserApplyRecord d r).2 = recordThrows r := by
  unfold browserApplyRecord browserRateStep browserLatencyStep recordThrows
  repeat' split
  all_goals simp_all

theorem browserGroupGo_append_throws (d : Device)
    (pre post : List ServiceRecord) (bad : ServiceRecord)
    (hbad : recordThrows bad = true) :
    browserGroupGo d (pre ++ bad :: post) = browserGroupGo d (pre ++ [bad]) := by
  induction pre generalizing d with
  | nil =>
    simp only [List.nil_append]
    have h2 := browserApplyRecord_snd d bad
    rw [hbad] at h2
    cases hab : browserApplyRecord d bad with
    | mk d' th =>
      rw [hab] at h2
      simp at h2
      subst h2
      simp [browserGroupGo, hab]
  | cons r t ih =>
    simp only [List.cons_append, browserGroupGo]
    cases hab : browserApplyRecord d r with
    | mk d' th =>
      cases th
      · simp [ih]
      · simp

/-- C7 (amended): in `DanteBrowser._browse` a record that raises during
the property merge stops the merge of every later record of its group
(the device built so far is still kept), while the coordinator's
per-record handler lets the remaining records merge normally. -/
theorem claimC7_parse_failure_scope (host : List Char)
    (pre post : List ServiceRecord) (bad : ServiceRecord)
    (hbad : recordThrows bad = true) :
    browserBuildDevice host (pre ++ bad :: post) =
      browserBuildDevice host (pre ++ [bad]) ∧
    consolidateDevice host (pre ++ bad :: post) =
      List.foldl coordApplyRecord (consolidateDevice host (pre ++ [bad]))
        post := by
  constructor
  · exact browserGroupGo_append_throws _ pre post bad hbad
  · unfold consolidateDevice
    rw [List.foldl_append, List.foldl_append, List.foldl_cons]
    simp [List.foldl_cons]

/-- A record whose `rate` property is not an integer. -/
def recBadRate : ServiceRecord :=
  { stype := chars "_netaudio-arc._udp.local.",
    sname := chars "bad._netaudio-arc._udp.local.",
    ipv4 := chars "10.0.0.3", port := 4440,
    props := [(chars "rate", chars "fast")],
    server_name := chars "switch2.local." }

/-- Counterexample to C7 as stated: in `_browse`, the record after the
failing one is not merged (its model is lost), though the coordinator's
per-record loop does merge it. -/
theorem claimC7_counterexample :
    recordThrows recBadRate = true ∧
    (browserBuildDevice (chars "switch2") [recBadRate, recModel]).model_id =
      none ∧
    (consolidateDevice (chars "switch2") [recBadRate, recModel]).model_id =
      some (chars "DAI2") := by decide

/-- Witness for C7 at a two-record group with a bad rate first. -/
theorem claimC7_parse_failure_scope_witness :
    recordThrows recBadRate = true ∧
    (browserBuildDevice (chars "switch2") ([] ++ recBadRate :: [recModel]) =
        browserBuildDevice (chars "switch2") ([] ++ [recBadRate]) ∧
      consolidateDevice (chars "switch2") ([] ++ recBadRate :: [recModel]) =
        List.foldl coordApplyRecord
          (consolidateDevice (chars "switch2") ([] ++ [recBadRate]))
          [recModel]) :=
  ⟨by decide,
    claimC7_parse_failure_scope (chars "switch2") [] [recModel] recBadRate
      (by decide)⟩

/-! ## Reconciliation lemmas and claim C4 -/

/-- The selections state an `Except` run leaves behind (the error payload
is the state at the uncaught exception). -/
def exceptState : Except SelectionMap SelectionMap → SelectionMap
  | Except.ok s => s
  | Except.error s => s

/-- The conditions under which processing `sub` inserts the key `k`. -/
def subCreates (tbIp tbMc : List (List Char × (List Char × StreamInfo)))
    (dn : List Char) (dd : DevData) (sub : SubData)
    (k : List Char × Nat) : Prop :=
  k.1 = dn ∧
  (∃ s, sub.tx_device_name = some s ∧
    ((lookupAL tbIp s).or (lookupAL tbMc s)).isSome) ∧
  findRxNum dd.rx_channels sub.rx_channel_name = some k.2

theorem procSub_cases (tbIp tbMc : List (List Char × (List Char × StreamInfo)))
    (dn : List Char) (dd : DevData) (sel : SelectionMap) (sub : SubData) :
    procSub tbIp tbMc dn dd sel sub = Except.ok sel ∨
    procSub tbIp tbMc dn dd sel sub = Except.error sel ∨
    ∃ rxNum disp,
      procSub tbIp tbMc dn dd sel sub =
        Except.ok (insertAL sel (dn, rxNum) disp) ∧
      lookupAL sel (dn, rxNum) = none ∧
      subCreates tbIp tbMc dn dd sub (dn, rxNum) := by
  unfold procSub
  cases htx : sub.tx_device_name with
  | none => exact Or.inl rfl
  | some s =>
    simp only []
    cases hor : (lookupAL tbIp s).or (lookupAL tbMc s) with
    | none => exact Or.inl rfl
    | some p =>
      obtain ⟨streamName, info⟩ := p
      simp only []
      cases hfind : findRxNum dd.rx_channels sub.rx_channel_name with
      | none => exact Or.inl rfl
      | some rxNum =>
        simp only []
        by_cases hkey : (lookupAL sel (dn, rxNum)).isSome
        · rw [if_pos hkey]
          exact Or.inl rfl
        · rw [if_neg hkey]
          cases htc : sub.tx_channel_name with
          | none => exact Or.inr (Or.inl rfl)
          | some tc =>
            refine Or.inr (Or.inr ⟨rxNum, _, rfl,
              Option.not_isSome_iff_eq_none.1 hkey, rfl, ⟨s, htx, ?_⟩, hfind⟩)
            rw [hor]
            rfl

theorem procSub_preserve (tbIp tbMc : List (List Char × (List Char × StreamInfo)))
    (dn : List Char) (dd : DevData) (sel : SelectionMap) (sub : SubData)
    (k : List Char × Nat) (v : List Char) (h : lookupAL sel k = some v) :
    lookupAL (exceptState (procSub tbIp tbMc dn dd sel sub)) k = some v := by
  rcases procSub_cases tbIp tbMc dn dd sel sub with hc | hc |
    ⟨rxNum, disp, hc, hnone, _⟩
  · rw [hc]; exact h
  · rw [hc]; exact h
  · rw [hc]
    have hne : (dn, rxNum) ≠ k := by
      intro he
      rw [he, h] at hnone
      cases hnone
    simpa [exceptState, lookupAL_insertAL_ne _ _ _ _ hne] using h

theorem procSub_new (tbIp tbMc : List (List Char × (List Char × StreamInfo)))
    (dn : List Char) (dd : DevData) (sel : SelectionMap) (sub : SubData)
    (k : List Char × Nat) (hnone : lookupAL sel k = none)
    (hsome : (lookupAL (exceptState (procSub tbIp tbMc dn dd sel sub)) k).isSome) :
    subCreates tbIp tbMc dn dd sub k := by
  rcases procSub_cases tbIp tbMc dn dd sel sub with hc | hc |
    ⟨rxNum, disp, hc, hfresh, hcre⟩
  · rw [hc] at hsome
    rw [exceptState] at hsome
    rw [hnone] at hsome
    cases hsome
  · rw [hc] at hsome
    rw [exceptState] at hsome
    rw [hnone] at hsome
    cases hsome
  · rw [hc] at hsome
    by_cases hk : (dn, rxNum) = k
    · rw [← hk]
      exact hcre
    · rw [exceptState] at hsome
      rw [lookupAL_insertAL_ne _ _ _ _ hk, hnone] at hsome
      cases hsome

theorem procSubs_preserve (tbIp tbMc : List (List Char × (List Char × StreamInfo)))
    (dn : List Char) (dd : DevData) (subs : List SubData) (sel : SelectionMap)
    (k : List Char × Nat) (v : List Char) (h : lookupAL sel k = some v) :
    lookupAL (exceptState (procSubs tbIp tbMc dn dd sel subs)) k = some v := by
  induction subs generalizing sel with
  | nil => exact h
  | cons sub t ih =>
    have hp := procSub_preserve tbIp tbMc dn dd sel sub k v h
    rw [procSubs]
    cases hps : procSub tbIp tbMc dn dd sel sub with
    | ok s' =>
      rw [hps, exceptState] at hp
      exact ih s' hp
    | error s' =>
      rw [hps, exceptState] at hp
      exact hp

theorem procSubs_new (tbIp tbMc : List (List Char × (List Char × StreamInfo)))
    (dn : List Char) (dd : DevData) (subs : List SubData) (sel : SelectionMap)
    (k : List Char × Nat) (hnone : lookupAL sel k = none)
    (hsome : (lookupAL (exceptState (procSubs tbIp tbMc dn dd sel subs)) k).isSome) :
    ∃ sub ∈ subs, subCreates tbIp tbMc dn dd sub k := by
  induction subs generalizing sel with
  | nil =>
    rw [procSubs, exceptState, hnone] at hsome
    cases hsome
  | cons sub t ih =>
    rw [procSubs] at hsome
    cases hps : procSub tbIp tbMc dn dd sel sub with
    | ok s' =>
      rw [hps] at hsome
      by_cases hs' : (lookupAL s' k).isSome
      · have := procSub_new tbIp tbMc dn dd sel sub k hnone
          (by rw [hps]; exact hs')
        exact ⟨sub, List.mem_cons_self _ _, this⟩
      · obtain ⟨sub', hmem, hcre⟩ :=
          ih s' (Option.not_isSome_iff_eq_none.1 hs') hsome
        exact ⟨sub', List.mem_cons_of_mem _ hmem, hcre⟩
    | error s' =>
      rw [hps] at hsome
      have := procSub_new tbIp tbMc dn dd sel sub k hnone
        (by rw [hps]; exact hsome)
      exact ⟨sub, List.mem_cons_self _ _, this⟩

theorem procDevs_preserve (tbIp tbMc : List (List Char × (List Char × StreamInfo)))
    (devs : List (List Char × DevData)) (sel : SelectionMap)
    (k : List Char × Nat) (v : List Char) (h : lookupAL sel k = some v) :
    lookupAL (exceptState (procDevs tbIp tbMc sel devs)) k = some v := by
  induction devs generalizing sel with
  | nil => exact h
  | cons dev t ih =>
    obtain ⟨dn, dd⟩ := dev
    have hp := procSubs_preserve tbIp tbMc dn dd dd.subscriptions sel k v h
    rw [procDevs]
    cases hps : procSubs tbIp tbMc dn dd sel dd.subscriptions with
    | ok s' =>
      rw [hps, exceptState] at hp
      exact ih s' hp
    | error s' =>
      rw [hps, exceptState] at hp
      exact hp

theorem procDevs_new (tbIp tbMc : List (List Char × (List Char × StreamInfo)))
    (devs : List (List Char × DevData)) (sel : SelectionMap)
    (k : List Char × Nat) (hnone : lookupAL sel k = none)
    (hsome : (lookupAL (exceptState (procDevs tbIp tbMc sel devs)) k).isSome) :
    ∃ dn dd, (dn, dd) ∈ devs ∧
      ∃ sub ∈ dd.subscriptions, subCreates tbIp tbMc dn dd sub k := by
  induction devs generalizing sel with
  | nil =>
    rw [procDevs, exceptState, hnone] at hsome
    cases hsome
  | cons dev t ih =>
    obtain ⟨dn, dd⟩ := dev
    rw [procDevs] at hsome
    cases hps : procSubs tbIp tbMc dn dd sel dd.subscriptions with
    | ok s' =>
      rw [hps] at hsome
      by_cases hs' : (lookupAL s' k).isSome
      · obtain ⟨sub, hmem, hcre⟩ :=
          procSubs_new tbIp tbMc dn dd dd.subscriptions sel k hnone
            (by rw [hps]; exact hs')
        exact ⟨dn, dd, List.mem_cons_self _ _, sub, hmem, hcre⟩
      · obtain ⟨dn', dd', hmem, hrest⟩ :=
          ih s' (Option.not_isSome_iff_eq_none.1 hs') hsome
        exact ⟨dn', dd', List.mem_cons_of_mem _ hmem, hrest⟩
    | error s' =>
      rw [hps] at hsome
      obtain ⟨sub, hmem, hcre⟩ :=
        procSubs_new tbIp tbMc dn dd dd.subscriptions sel k hnone
          (by rw [hps]; exact hsome)
      exact ⟨dn, dd, List.mem_cons_self _ _, sub, hmem, hcre⟩

theorem reconcileSelections_eq (streams : List (List Char × StreamInfo))
    (result : List (List Char × DevData)) (sel : SelectionMap) :
    reconcileSelections streams result sel =
      exceptState (procDevs (buildIpTable streams) (buildMcastTable streams)
        sel result) := by
  unfold reconcileSelections
  cases procDevs (buildIpTable streams) (buildMcastTable streams) sel result <;>
    rfl

theorem buildIpTable_aux (streams : List (List Char × StreamInfo))
    (tb : List (List Char × (List Char × StreamInfo))) (s : List Char)
    (p : List Char × StreamInfo)
    (h : lookupAL (streams.foldl
      (fun tb p =>
        match p.2.origin_ip with
        | some a => if a ≠ [] then insertAL tb a (p.1, p.2) else tb
        | none => tb) tb) s = some p) :
    lookupAL tb s = some p ∨ (p ∈ streams ∧ p.2.origin_ip = some s) := by
  induction streams generalizing tb with
  | nil => exact Or.inl h
  | cons q t ih =>
    rw [List.foldl_cons] at h
    rcases ih _ h with h' | h'
    · cases hoq : q.2.origin_ip with
      | none =>
        rw [hoq] at h'
        exact Or.inl h'
      | some a =>
        rw [hoq] at h'
        by_cases hae : a = []
        · simp only [hae, ne_eq, not_true_eq_false, if_false] at h'
          exact Or.inl h'
        · simp only [ne_eq, hae, not_false_eq_true, if_true] at h'
          by_cases has : a = s
          · subst has
            rw [lookupAL_insertAL_self] at h'
            rw [Option.some_inj] at h'
            subst h'
            exact Or.inr ⟨List.mem_cons_self _ _, hoq⟩
          · rw [lookupAL_insertAL_ne _ _ _ _ has] at h'
            exact Or.inl h'
    · exact Or.inr ⟨List.mem_cons_of_mem _ h'.1, h'.2⟩

theorem buildIpTable_mem (streams : List (List Char × StreamInfo))
    (s : List Char) (p : List Char × StreamInfo)
    (h : lookupAL (buildIpTable streams) s = some p) :
    p ∈ streams ∧ p.2.origin_ip = some s := by
  rcases buildIpTable_aux streams [] s p h with h' | h'
  · cases h'
  · exact h'

theorem buildMcastTable_aux (streams : List (List Char × StreamInfo))
    (tb : List (List Char × (List Char × StreamInfo))) (s : List Char)
    (p : List Char × StreamInfo)
    (h : lookupAL (streams.foldl
      (fun tb p =>
        match p.2.multicast_addr with
        | some a => if a ≠ [] then insertAL tb a (p.1, p.2) else tb
        | none => tb) tb) s = some p) :
    lookupAL tb s = some p ∨ (p ∈ streams ∧ p.2.multicast_addr = some s) := by
  induction streams generalizing tb with
  | nil => exact Or.inl h
  | cons q t ih =>
    rw [List.foldl_cons] at h
    rcases ih _ h with h' | h'
    · cases hoq : q.2.multicast_addr with
      | none =>
        rw [hoq] at h'
        exact Or.inl h'
      | some a =>
        rw [hoq] at h'
        by_cases hae : a = []
        · simp only [hae, ne_eq, not_true_eq_false, if_false] at h'
          exact Or.inl h'
        · simp only [ne_eq, hae, not_false_eq_true, if_true] at h'
          by_cases has : a = s
          · subst has
            rw [lookupAL_insertAL_self] at h'
            rw [Option.some_inj] at h'
            subst h'
            exact Or.inr ⟨List.mem_cons_self _ _, hoq⟩
          · rw [lookupAL_insertAL_ne _ _ _ _ has] at h'
            exact Or.inl h'
    · exact Or.inr ⟨List.mem_cons_of_mem _ h'.1, h'.2⟩

theorem buildMcastTable_mem (streams : List (List Char × StreamInfo))
    (s : List Char) (p : List Char × StreamInfo)
    (h : lookupAL (buildMcastTable streams) s = some p) :
    p ∈ streams ∧ p.2.multicast_addr = some s := by
  rcases buildMcastTable_aux streams [] s p h with h' | h'
  · cases h'
  · exact h'

theorem findRxNum_mem (chans : List (Nat × Option (List Char)))
    (nm : Option (List Char)) (num : Nat)
    (h : findRxNum chans nm = some num) : (num, nm) ∈ chans := by
  induction chans with
  | nil => cases h
  | cons c t ih =>
    obtain ⟨n₁, cn⟩ := c
    rw [findRxNum] at h
    by_cases hc : cn = nm
    · rw [if_pos hc] at h
      rw [Option.some_inj] at h
      subst h
      subst hc
      exact List.mem_cons_self _ _
    · rw [if_neg hc] at h
      exact List.mem_cons_of_mem _ (ih h)

/-- C4: reconciliation never changes or removes an existing SelectionMap
entry, and a new entry for `(device, rx channel)` appears only when some
subscription of that device has a `tx_device_name` matching a cached
stream's origin or multicast address and an `rx_channel_name` equal to
the name of that device's rx channel with that number. -/
theorem claimC4_reconcile_frame (streams : List (List Char × StreamInfo))
    (result : List (List Char × DevData)) (sel : SelectionMap) :
    (∀ (k : List Char × Nat) (v : List Char),
      lookupAL sel k = some v →
      lookupAL (reconcileSelections streams result sel) k = some v) ∧
    (∀ k : List Char × Nat,
      lookupAL sel k = none →
      (lookupAL (reconcileSelections streams result sel) k).isSome →
      ∃ dd, (k.1, dd) ∈ result ∧
        ∃ sub ∈ dd.subscriptions,
          (∃ s, sub.tx_device_name = some s ∧
            ∃ nm info, (nm, info) ∈ streams ∧
              (info.origin_ip = some s ∨ info.multicast_addr = some s)) ∧
          (k.2, sub.rx_channel_name) ∈ dd.rx_channels) := by
  constructor
  · intro k v h
    rw [reconcileSelections_eq]
    exact procDevs_preserve _ _ result sel k v h
  · intro k hnone hsome
    rw [reconcileSelections_eq] at hsome
    obtain ⟨dn, dd, hmemdev, sub, hmemsub, hdn, ⟨s, htx, hor⟩, hfind⟩ :=
      procDevs_new _ _ result sel k hnone hsome
    refine ⟨dd, ?_, sub, hmemsub, ⟨s, htx, ?_⟩, ?_⟩
    · rw [hdn]
      exact hmemdev
    · cases hip : lookupAL (buildIpTable streams) s with
      | some p =>
        obtain ⟨hmem, hfield⟩ := buildIpTable_mem streams s p hip
        exact ⟨p.1, p.2, hmem, Or.inl hfield⟩
      | none =>
        cases hmc : lookupAL (buildMcastTable streams) s with
        | some p =>
          obtain ⟨hmem, hfield⟩ := buildMcastTable_mem streams s p hmc
          exact ⟨p.1, p.2, hmem, Or.inr hfield⟩
        | none =>
          rw [hip, hmc] at hor
          cases hor
    · exact findRxNum_mem dd.rx_channels sub.rx_channel_name k.2 hfind

/-- Witness for C4: an existing selection survives a reconciliation run. -/
theorem claimC4_reconcile_frame_witness :
    lookupAL [((chars "D", 1), chars "keep")] (chars "D", 1) =
      some (chars "keep") ∧
    lookupAL (reconcileSelections [(chars "S", scenarioAInfo)] []
        [((chars "D", 1), chars "keep")]) (chars "D", 1) =
      some (chars "keep") :=
  ⟨by decide,
    (claimC4_reconcile_frame [(chars "S", scenarioAInfo)] []
        [((chars "D", 1), chars "keep")]).1 (chars "D", 1) (chars "keep")
      (by decide)⟩

/-! ## Option-string round-trip lemmas and claim C9 -/

theorem lastOccur_append_some (sep a b : List Char) (i : Nat)
    (h : lastOccur sep b = some i) :
    lastOccur sep (a ++ b) = some (a.length + i) := by
  induction a with
  | nil => simpa using h
  | cons c a' ih =>
    rw [List.cons_append, lastOccur, ih]
    simp [Nat.add_assoc, Nat.add_comm, Nat.add_left_comm]

theorem lastOccur_space_cons_none (ch : List Char)
    (hnone : lastOccur (chars " - ") ch = none)
    (hdash : ¬((chars "- ").isPrefixOf ch = true)) :
    lastOccur (chars " - ") (' ' :: ch) = none := by
  rw [lastOccur, hnone]
  have : (chars " - ").isPrefixOf (' ' :: ch) = false := by
    cases hp : (chars " - ").isPrefixOf (' ' :: ch) with
    | false => rfl
    | true =>
      exact absurd (by simpa [chars, List.isPrefixOf] using hp) hdash
  rw [this]
  rfl

theorem lastOccur_dash_cons_none (ch : List Char)
    (hnone : lastOccur (chars " - ") (' ' :: ch) = none) :
    lastOccur (chars " - ") ('-' :: ' ' :: ch) = none := by
  rw [lastOccur, hnone]
  simp [chars, List.isPrefixOf]

theorem lastOccur_sep_append (ch : List Char)
    (h1 : lastOccur (chars " - ") ch = none)
    (h2 : ¬((chars "- ").isPrefixOf ch = true)) :
    lastOccur (chars " - ") (chars " - " ++ ch) = some 0 := by
  have hs1 : lastOccur (chars " - ") (' ' :: ch) = none :=
    lastOccur_space_cons_none ch h1 h2
  have hs2 : lastOccur (chars " - ") ('-' :: ' ' :: ch) = none :=
    lastOccur_dash_cons_none ch hs1
  show lastOccur (chars " - ") (' ' :: '-' :: ' ' :: ch) = some 0
  rw [lastOccur, hs2]
  simp [chars, List.isPrefixOf]

theorem rsplitOnce_append (name ch : List Char)
    (h1 : lastOccur (chars " - ") ch = none)
    (h2 : ¬((chars "- ").isPrefixOf ch = true)) :
    rsplitOnce (chars " - ") (name ++ (chars " - " ++ ch)) =
      some (name, ch) := by
  have hlast : lastOccur (chars " - ") (name ++ (chars " - " ++ ch)) =
      some (name.length + 0) :=
    lastOccur_append_some _ name _ 0 (lastOccur_sep_append ch h1 h2)
  unfold rsplitOnce
  rw [hlast]
  simp only [Option.map_some', Option.some_inj, Nat.add_zero, Prod.mk.injEq]
  constructor
  · exact List.take_left name (chars " - " ++ ch)
  · rw [show (chars " - ").length = 3 from rfl]
    have h3 : name.length + 3 = (name ++ chars " - ").length := by
      rw [List.length_append, show (chars " - ").length = 3 from rfl]
    rw [h3, ← List.append_assoc, List.drop_left]

theorem findChannelIdxGo_nodup (names : List (List Char)) (k i : Nat)
    (hnd : names.Nodup) (hk : k < names.length) :
    findChannelIdxGo i (names.get ⟨k, hk⟩) names = some (i + k) := by
  induction names generalizing k i with
  | nil => cases hk
  | cons n t ih =>
    cases k with
    | zero => simp [findChannelIdxGo]
    | succ j =>
      have hj : j < t.length := Nat.lt_of_succ_lt_succ hk
      have hget : (n :: t).get ⟨j + 1, hk⟩ = t.get ⟨j, hj⟩ := rfl
      rw [hget, findChannelIdxGo]
      have hne : n ≠ t.get ⟨j, hj⟩ := by
        intro he
        exact (List.nodup_cons.1 hnd).1 (he ▸ List.get_mem t j hj)
      rw [if_neg hne, ih j (i + 1) (List.nodup_cons.1 hnd).2 hj]
      congr 1
      omega

/-- C9 (amended): for every cached stream whose derived channel names are
pairwise distinct, contain no `" - "` substring and do not start with
`"- "`, parsing the option string `get_all_aes67_sources` lists for its
k-th channel yields that stream's StreamInfo with the 1-based index
k + 1. -/
theorem claimC9_option_roundtrip (streams : List (List Char × StreamInfo))
    (name : List Char) (info : StreamInfo) (k : Nat)
    (hlk : lookupAL streams name = some info)
    (hnd : (getChannelNames info).Nodup)
    (hk : k < (getChannelNames info).length)
    (hsep : ∀ ch ∈ getChannelNames info, lastOccur (chars " - ") ch = none)
    (hdash : ∀ ch ∈ getChannelNames info,
      ¬((chars "- ").isPrefixOf ch = true)) :
    getAes67StreamInfo streams
      (aes67Option name ((getChannelNames info).get ⟨k, hk⟩)) =
      some (info, k + 1) := by
  have hchmem : (getChannelNames info).get ⟨k, hk⟩ ∈ getChannelNames info :=
    List.get_mem _ _ _
  have hdrop :
      (aes67Option name ((getChannelNames info).get ⟨k, hk⟩)).drop 8 =
        name ++ (chars " - " ++ (getChannelNames info).get ⟨k, hk⟩) := by
    unfold aes67Option
    rw [List.append_assoc, List.append_assoc,
      show (8 : Nat) = (chars "[AES67] ").length from rfl, List.drop_left]
  unfold getAes67StreamInfo
  rw [hdrop]
  simp only [rsplitOnce_append _ _ (hsep _ hchmem) (hdash _ hchmem), hlk,
    findChannelIdxGo_nodup (getChannelNames info) k 1 hnd hk]
  simp [Nat.add_comm]

/-- The stream of C9's counterexample: channel names starting with
`"- "`. -/
def infoC9 : StreamInfo :=
  { session_name := chars "S", session_id := none, origin_ip := none,
    multicast_addr := none, port := none, codec := none, channels := 2,
    channel_info := some (chars "x:- a,- b") }

/-- The one-stream cache of C9's counterexample. -/
def streamsC9 : List (List Char × StreamInfo) := [(chars "S", infoC9)]

/-- Counterexample to C9 as stated: the channel names are distinct and
contain no `" - "`, the option is produced by `get_all_aes67_sources`,
yet parsing it returns none (the trailing `"- a"` shifts the last
`" - "`). -/
theorem claimC9_counterexample :
    getChannelNames infoC9 = [chars "- a", chars "- b"] ∧
    (getChannelNames infoC9).Nodup ∧
    (∀ ch ∈ getChannelNames infoC9, lastOccur (chars " - ") ch = none) ∧
    getAllAes67Sources streamsC9 =
      [chars "[AES67] S - - a", chars "[AES67] S - - b"] ∧
    aes67Option (chars "S") (chars "- a") = chars "[AES67] S - - a" ∧
    getAes67StreamInfo streamsC9 (chars "[AES67] S - - a") = none := by
  decide

/-- Witness for C9 at the scenario-A stream's first channel. -/
theorem claimC9_option_roundtrip_witness :
    getAes67StreamInfo [(chars "Studio A", scenarioAInfo)]
      (aes67Option (chars "Studio A")
        ((getChannelNames scenarioAInfo).get ⟨0, by decide⟩)) =
      some (scenarioAInfo, 1) :=
  claimC9_option_roundtrip [(chars "Studio A", scenarioAInfo)]
    (chars "Studio A") scenarioAInfo 0 (by decide) (by decide) (by decide)
    (by decide) (by decide)
